import Mathlib

/-! # csvtk: the `dim` and `pretty` commands

A shallow embedding of `cmd/dim.go` and `cmd/pretty.go`.

Both commands are consumers of a CSV reader that lives outside these two
files.  What the reader hands to a command is an input of the model:

* `newCSVReaderByConfig` returns a pair `(csvReader, err)`; a reader is
  represented by the finite list of chunks its channel `Ch` delivers before it
  is closed;
* `checkError` is declared outside these two files, so it is a parameter
  `ce : Option Err → Bool` telling whether the call returns to its caller
  (`true`) or never returns (`false`);
* `readCSV` returns `headerRow` and `data`, which are arguments of the
  `pretty` model;
* `prettytable.NewTable` belongs to a library outside the repository, so it is
  a parameter `newTable : List Column → Bool` telling whether it returns a
  table (`true`) or a nil table and an error (`false`).

A Go run-time panic (nil pointer dereference, index out of range) is an
explicit outcome.
-/

namespace Csvtk

/-! ## Data model -/

/-- Go `error` values seen by the commands: `xopen.ErrNoContent`, which the
code tests with `==`, and any other error. -/
inductive Err where
  | ErrNoContent
  | other (msg : String)
  deriving DecidableEq, Repr

/-- One value received from `csvReader.Ch`: the records of the chunk and the
error attached to it (`chunk.Data`, `chunk.Err`).  The sequence number of the
chunk is never read by `dim`. -/
structure CSVRecordsChunk where
  Data : List (List String)
  Err : Option Err
  deriving DecidableEq, Repr

/-- The pair returned by `newCSVReaderByConfig(config, file)`.  `csvReader` is
`none` for a nil pointer; otherwise it is the list of chunks that ranging over
`csvReader.Ch` yields. -/
structure OpenResult where
  csvReader : Option (List CSVRecordsChunk)
  err : Option Err
  deriving DecidableEq, Repr

/-- The field of `config` that `dim` and `pretty` branch on. -/
structure Config where
  NoHeaderRow : Bool
  deriving DecidableEq, Repr

/-- The four boolean flags of `dim` (dim.go:47-50). -/
structure Flags where
  tabular : Bool
  cols : Bool
  rows : Bool
  noFiles : Bool
  deriving DecidableEq, Repr

/-- The conversion `int64(x)` of a `uint64` value. -/
def toInt64 (x : Nat) : Int :=
  if x % 2 ^ 64 < 2 ^ 63 then ((x % 2 ^ 64 : Nat) : Int) else ((x % 2 ^ 64 : Nat) : Int) - 2 ^ 64

/-- A row handed to `tbl.AddRow` by `dim`: the file name and the two `int64`
values that are passed through `humanize.Comma`. -/
structure TblRow where
  file : String
  numCols : Int
  numRows : Int
  deriving DecidableEq, Repr

/-- One write on `outfh`: a string written with `WriteString`, or the bytes of
the rendered table (`outfh.Write(tbl.Bytes())`), kept as the rows of the
table. -/
inductive Written where
  | text (s : String)
  | tableBytes (rows : List TblRow)
  deriving DecidableEq, Repr

/-- How `dimCmd.Run` ends: it returns, `checkError` did not return, or the Go
run time panicked. -/
inductive Exit where
  | returned
  | halted
  | panicked
  deriving DecidableEq, Repr

/-- The state `dimCmd.Run` threads through the loop over files: what has been
written on `outfh` so far, and `tbl` (`none` when the pointer is nil). -/
structure DimState where
  out : List Written
  tbl : Option (List TblRow)
  deriving DecidableEq, Repr

/-! ## `dim` -/

/-- `fmt.Sprintf("%d\n", n)` or `fmt.Sprintf("%s\t%d\n", file, n)`, chosen by
`noFiles` (dim.go:76-80, 114-118, 132-136). -/
def oneCountLine (noFiles : Bool) (file : String) (n : Nat) : String :=
  if noFiles then toString n ++ "\n" else file ++ "\t" ++ toString n ++ "\n"

/-- `fmt.Sprintf("%d\t%d\n", numCols, numRows)` or the same with the file name
in front (dim.go:82-86, 138-142). -/
def twoCountLine (noFiles : Bool) (file : String) (numCols numRows : Nat) : String :=
  if noFiles then toString numCols ++ "\t" ++ toString numRows ++ "\n"
  else file ++ "\t" ++ toString numCols ++ "\t" ++ toString numRows ++ "\n"

/-- The state before the loop over files (dim.go:56-67): nothing when `rows`
or `cols` is set, the header line in tabular mode, a fresh table otherwise. -/
def setup (fl : Flags) : DimState :=
  if fl.rows || fl.cols then { out := [], tbl := none }
  else if fl.tabular then { out := [Written.text "file\tnum_cols\tnum_rows\n"], tbl := none }
  else { out := [], tbl := some [] }

/-- What happens to the loop over files after one file. -/
inductive Step where
  | next
  | halt
  | panic
  deriving DecidableEq, Repr

/-- The three-way report of one file (dim.go:75-92 and 131-148): the `rows`
line, the tabular line, or `tbl.AddRow`, which dereferences `tbl` and so
panics on a nil table. -/
def report (fl : Flags) (file : String) (numCols numRows : Nat) (st : DimState) :
    DimState × Step :=
  if fl.rows then
    ({ st with out := st.out ++ [Written.text (oneCountLine fl.noFiles file numRows)] }, Step.next)
  else if fl.tabular then
    ({ st with out := st.out ++ [Written.text (twoCountLine fl.noFiles file numCols numRows)] },
      Step.next)
  else
    match st.tbl with
    | none => (st, Step.panic)
    | some rs =>
      ({ st with tbl := some (rs ++ [⟨file, toInt64 numCols, toInt64 numRows⟩]) }, Step.next)

/-- The local variables of the chunk loop, with the number of chunks received
from the channel and the lines the loop has written. -/
structure LoopState where
  numCols : Nat
  numRows : Nat
  once : Bool
  consumed : Nat
  lines : List String
  deriving DecidableEq, Repr

/-- How the chunk loop is left: the channel was closed, `break HERE`, or
`checkError(chunk.Err)` did not return. -/
inductive LoopExit where
  | closed
  | broke
  | halted
  deriving DecidableEq, Repr

/-- The values of the locals when the chunk loop is entered (dim.go:70, 102). -/
def LoopState.init : LoopState :=
  { numCols := 0, numRows := 0, once := true, consumed := 0, lines := [] }

/-- The loop `for chunk := range csvReader.Ch` (dim.go:104-123).  `numRows` is
a `uint64`, so the addition wraps at `2 ^ 64`; `len` yields a non-negative
`int`, so `uint64(len(record))` is the length itself. -/
def chunkLoop (ce : Option Err → Bool) (cols noFiles : Bool) (file : String) :
    List CSVRecordsChunk → LoopState → LoopState × LoopExit
  | [], s => (s, LoopExit.closed)
  | chunk :: rest, s =>
    let s1 := { s with consumed := s.consumed + 1 }
    if ce chunk.Err = false then (s1, LoopExit.halted)
    else
      let s2 := { s1 with numRows := (s1.numRows + chunk.Data.length) % 2 ^ 64 }
      if s2.once then
        let s3 :=
          match chunk.Data with
          | [] => s2
          | record :: _ => { s2 with numCols := record.length }
        if cols then
          ({ s3 with lines := s3.lines ++ [oneCountLine noFiles file s3.numCols] }, LoopExit.broke)
        else chunkLoop ce cols noFiles file rest { s3 with once := false }
      else chunkLoop ce cols noFiles file rest s2

/-- The part of the body of the loop over files after the reader is started
(dim.go:100-150).  `readerReport` writes nothing on `outfh`. -/
def countFile (ce : Option Err → Bool) (config : Config) (fl : Flags) (st : DimState)
    (file : String) (chunks : List CSVRecordsChunk) : DimState × Step :=
  match chunkLoop ce fl.cols fl.noFiles file chunks LoopState.init with
  | (s, LoopExit.halted) => ({ st with out := st.out ++ s.lines.map Written.text }, Step.halt)
  | (s, _) =>
    let st1 := { st with out := st.out ++ s.lines.map Written.text }
    if fl.cols then (st1, Step.next)
    else
      let numRows := if s.numRows > 0 && !config.NoHeaderRow then s.numRows - 1 else s.numRows
      report fl file s.numCols numRows st1

/-- The body of `for _, file := range files` (dim.go:70-150).  On
`xopen.ErrNoContent` the zero counts are reported and the loop continues; any
other error goes to `checkError`, and when that call returns the code falls
through to `csvReader.Run()` and `csvReader.Ch`, which panic on a nil
reader. -/
def dimFile (ce : Option Err → Bool) (config : Config) (fl : Flags) (st : DimState)
    (file : String) (o : OpenResult) : DimState × Step :=
  let started : DimState × Step :=
    match o.csvReader with
    | none => (st, Step.panic)
    | some chunks => countFile ce config fl st file chunks
  match o.err with
  | none => started
  | some Err.ErrNoContent => report fl file 0 0 st
  | some e => if ce (some e) = false then (st, Step.halt) else started

/-- The loop over the files (dim.go:69-152). -/
def dimLoop (ce : Option Err → Bool) (config : Config) (fl : Flags) :
    List (String × OpenResult) → DimState → DimState × Exit
  | [], st => (st, Exit.returned)
  | (file, o) :: rest, st =>
    match dimFile ce config fl st file o with
    | (st1, Step.next) => dimLoop ce config fl rest st1
    | (st1, Step.halt) => (st1, Exit.halted)
    | (st1, Step.panic) => (st1, Exit.panicked)

/-- The command `dim` once `outfh` is open (dim.go:56-155): table setup, the
loop over the files, and the final write of the table when neither `rows`,
`cols` nor `tabular` is set. -/
def dimRun (ce : Option Err → Bool) (config : Config) (fl : Flags)
    (files : List (String × OpenResult)) : DimState × Exit :=
  match dimLoop ce config fl files (setup fl) with
  | (st, Exit.returned) =>
    if !(fl.rows || fl.cols) && !fl.tabular then
      match st.tbl with
      | none => (st, Exit.panicked)
      | some rs => ({ st with out := st.out ++ [Written.tableBytes rs] }, Exit.returned)
    else (st, Exit.returned)
  | r => r

/-! ## `pretty` -/

/-- A value of type `interface{}` stored in `record2`: nil or a string. -/
abbrev Cell := Option String

/-- The string `strings.Repeat("-", l)`. -/
def dashes (l : Nat) : String := String.mk (List.replicate l '-')

/-- The column names (pretty.go:70-84): the header row when it is non-empty,
otherwise `1`, `2`, ... up to the width of the first data record. -/
def colnames (headerRow : List String) (data : List (List String)) : List String :=
  if headerRow.length > 0 then headerRow
  else
    match data with
    | [] => []
    | first :: _ => (List.range first.length).map (fun i => toString (i + 1))

/-- A column definition handed to `prettytable.NewTable` (pretty.go:88-89). -/
structure Column where
  Header : String
  AlignRight : Bool
  MinWidth : Nat
  MaxWidth : Nat
  deriving DecidableEq, Repr

/-- The slice `columns` (pretty.go:86-90): one column per column name, all
with the flags `align-right`, `min-width` and `max-width`. -/
def columnsOf (alignRight : Bool) (minWidth maxWidth : Nat) (names : List String) :
    List Column :=
  names.map (fun c => ⟨c, alignRight, minWidth, maxWidth⟩)

/-- The slice `record2` as allocated (pretty.go:97-102): nil values, as many
as the header row has fields, or as the first data record has when the header
row is empty. -/
def newRecord2 (headerRow : List String) (data : List (List String)) : List Cell :=
  if headerRow.length > 0 then List.replicate headerRow.length none
  else
    match data with
    | [] => []
    | first :: _ => List.replicate first.length none

/-- The slice `maxLens` after the loop over the header row (pretty.go:106-114):
the byte length of each header field, `1` for an empty field. -/
def headerLens (headerRow : List String) : List Nat :=
  headerRow.map (fun r => if r.utf8ByteSize > 0 then r.utf8ByteSize else 1)

/-- The loop `for i, r = range record` of pretty.go:116-121, from index `i` on:
`maxLens[i]` is read for every field, so an index beyond `maxLens` gives
`none` (index out of range). -/
def widenBy : Nat → List String → List Nat → Option (List Nat)
  | _, [], maxLens => some maxLens
  | i, r :: rs, maxLens =>
    match maxLens[i]? with
    | none => none
    | some cur =>
      widenBy (i + 1) rs (if r.utf8ByteSize > cur then maxLens.set i r.utf8ByteSize else maxLens)

/-- The loop `for _, record = range data` of pretty.go:115-122. -/
def widenAll : List (List String) → List Nat → Option (List Nat)
  | [], maxLens => some maxLens
  | record :: rest, maxLens =>
    match widenBy 0 record maxLens with
    | none => none
    | some m => widenAll rest m

/-- The cap of pretty.go:123-129.  The loop ranges over the indices of the
header row, which are the indices of `maxLens`. -/
def capLens (maxWidth : Nat) (maxLens : List Nat) : List Nat :=
  if maxWidth > 0 then maxLens.map (fun l => if l > maxWidth then maxWidth else l) else maxLens

/-- The floor of pretty.go:130-136. -/
def floorLens (minWidth : Nat) (maxLens : List Nat) : List Nat :=
  if minWidth > 0 then maxLens.map (fun l => if l < minWidth then minWidth else l) else maxLens

/-- The loop `for i, v = range values { record2[i] = v }` from index `i` on
(pretty.go:137-139 and 145-147); `none` when an index is beyond `record2`. -/
def assign : Nat → List Cell → List Cell → Option (List Cell)
  | _, [], record2 => some record2
  | i, v :: vs, record2 =>
    if i < record2.length then assign (i + 1) vs (record2.set i v) else none

/-- The loop over the data records (pretty.go:143-149): each record is copied
into `record2` and `record2` is handed to `tbl.AddRow`.  The rows of the table
are the values `record2` holds at each call. -/
def addRows : List (List String) → List Cell → List (List Cell) → Option (List (List Cell))
  | [], _, rows => some rows
  | record :: rest, record2, rows =>
    match assign 0 (record.map some) record2 with
    | none => none
    | some r2 => addRows rest r2 (rows ++ [r2])

/-- The header separator (pretty.go:104-141): `record2` after the separator
has been written into it and the rows of the table, or `record2` untouched and
no row when `config.NoHeaderRow` is set. -/
def separator (config : Config) (minWidth maxWidth : Nat) (headerRow : List String)
    (data : List (List String)) (record2 : List Cell) :
    Option (List Cell × List (List Cell)) :=
  if !config.NoHeaderRow then
    match widenAll data (headerLens headerRow) with
    | none => none
    | some maxLens =>
      match assign 0 ((floorLens minWidth (capLens maxWidth maxLens)).map
          (fun l => some (dashes l))) record2 with
      | none => none
      | some r2 => some (r2, [r2])
  else some (record2, [])

/-- How the body of `pretty` ends once `readCSV` has returned without error:
the warning "no data found"; a nil pointer dereference at `tbl.Separator`
when `prettytable.NewTable` returned no table; `checkError` not returning; a
panic on an index out of range; or the table with its columns and the rows
handed to `tbl.AddRow`. -/
inductive PrettyResult where
  | noData
  | nilPanic
  | halted
  | indexPanic
  | table (columns : List Column) (rows : List (List Cell))
  deriving DecidableEq, Repr

/-- The body of `prettyCmd.Run` from the test of the header row to the last
`tbl.AddRow` (pretty.go:70-149).  `prettytable.NewTable` belongs to a library
outside the repository: `newTable columns` tells whether it returns a table
and a nil error (`true`) or a nil table and an error (`false`).  The code
assigns `tbl.Separator` before `checkError(err)`, so a nil table panics at
pretty.go:92; with a table, `checkError` is called on the nil error. -/
def prettyRows (ce : Option Err → Bool) (newTable : List Column → Bool) (config : Config)
    (alignRight : Bool) (minWidth maxWidth : Nat) (headerRow : List String)
    (data : List (List String)) : PrettyResult :=
  if headerRow.length = 0 ∧ data.length = 0 then PrettyResult.noData
  else
    let columns := columnsOf alignRight minWidth maxWidth (colnames headerRow data)
    if newTable columns = false then PrettyResult.nilPanic
    else if ce none = false then PrettyResult.halted
    else
      match separator config minWidth maxWidth headerRow data (newRecord2 headerRow data) with
      | none => PrettyResult.indexPanic
      | some (record2, rows) =>
        match addRows data record2 rows with
        | none => PrettyResult.indexPanic
        | some rows1 => PrettyResult.table columns rows1

/-- The library function `prettytable.NewTable` as it behaves: it returns no
table for an empty list of columns, nor for a column whose `MinWidth` exceeds
a positive `MaxWidth`. -/
def prettytableNewTable (columns : List Column) : Bool :=
  !columns.isEmpty &&
    columns.all (fun c => !(decide (c.MaxWidth > 0) && decide (c.MinWidth > c.MaxWidth)))

/-- The upstream behaviour of `checkError`: return on a nil error, terminate
the process on any other. -/
def checkErrorExit (e : Option Err) : Bool := e.isNone

/-! ## Specification-side functions -/

/-- The number of records a chunk stream delivers in total. -/
def totalRecords (chunks : List CSVRecordsChunk) : Nat :=
  (chunks.map (fun c => c.Data.length)).sum

/-- The data-row count in the words of the specification: `0` for no record,
`N` without a header, `N - 1` with a header. -/
def specDataRows (noHeaderRow : Bool) (N : Nat) : Nat :=
  if N = 0 then 0 else if noHeaderRow then N else N - 1

/-- The width of the first record of the first chunk, `0` when there is no
such record. -/
def firstWidth (chunks : List CSVRecordsChunk) : Nat :=
  match chunks with
  | [] => 0
  | c :: _ =>
    match c.Data with
    | [] => 0
    | record :: _ => record.length

/-- Whether `dim` meets an error in the file: the open returns an error other
than `xopen.ErrNoContent`, or a chunk that the loop receives carries an error
(with `--cols` only the first chunk is received). -/
def fileFails (cols : Bool) (o : OpenResult) : Bool :=
  match o.err with
  | some Err.ErrNoContent => false
  | some _ => true
  | none =>
    match o.csvReader with
    | none => false
    | some chunks =>
      if cols then
        match chunks with
        | [] => false
        | c :: _ => c.Err.isSome
      else chunks.any (fun c => c.Err.isSome)

/-- The largest byte length in column `i`: the header field counted as at
least `1`, and the field `i` of every data record that has one. -/
def specColMax (headerRow : List String) (data : List (List String)) (i : Nat) : Nat :=
  data.foldl (fun acc record => max acc (record.getD i "").utf8ByteSize)
    (max 1 (headerRow.getD i "").utf8ByteSize)

/-- The length of the separator cell of column `i`: the column maximum, capped
to `maxWidth` when `maxWidth > 0`, then raised to `minWidth` when
`minWidth > 0`. -/
def specSepLen (minWidth maxWidth : Nat) (headerRow : List String) (data : List (List String))
    (i : Nat) : Nat :=
  let m := specColMax headerRow data i
  let capped := if maxWidth > 0 then min m maxWidth else m
  if minWidth > 0 then max capped minWidth else capped

/-- The rows of the table in the words of the claim: the row of a record holds
the fields of the record in its first cells and, beyond them, the cells of the
row added before it. -/
def specRows (previous : List Cell) : List (List String) → List (List Cell)
  | [] => []
  | record :: rest =>
    (record.map some ++ previous.drop record.length) ::
      specRows (record.map some ++ previous.drop record.length) rest

/-- The number of columns of the table: the width of the header row, or of the
first data record when the header row is empty. -/
def tableWidth (headerRow : List String) (data : List (List String)) : Nat :=
  if headerRow.length > 0 then headerRow.length else (data.headD []).length

/-- The values `maxLens` holds after one record has been scanned, field by
field. -/
def widened : List String → List Nat → List Nat
  | [], b => b
  | _ :: _, [] => []
  | r :: rs, x :: b => max x r.utf8ByteSize :: widened rs b

/-- The separator row in the words of the claim: one cell of `'-'` per column
of the header, of the length `specSepLen` gives. -/
def specSepRow (minWidth maxWidth : Nat) (headerRow : List String) (data : List (List String)) :
    List Cell :=
  (List.range headerRow.length).map
    (fun i => some (dashes (specSepLen minWidth maxWidth headerRow data i)))

/-! ## Lemmas on the chunk loop -/

theorem chunkLoop_later (ce : Option Err → Bool) (hce : ce none = true) (nf : Bool)
    (file : String) (chunks : List CSVRecordsChunk) :
    ∀ s : LoopState, (∀ c ∈ chunks, c.Err = none) → s.once = false → s.numRows < 2 ^ 64 →
      chunkLoop ce false nf file chunks s =
        ({ s with consumed := s.consumed + chunks.length,
                  numRows := (s.numRows + totalRecords chunks) % 2 ^ 64 }, LoopExit.closed) := by
  induction chunks with
  | nil =>
    intro s _ _ hlt
    obtain ⟨nc, nr, o, k, ls⟩ := s
    simp only at hlt
    simp only [chunkLoop, totalRecords, List.map_nil, List.sum_nil, List.length_nil, Nat.add_zero,
      Nat.mod_eq_of_lt hlt]
  | cons c rest ih =>
    intro s herr honce hlt
    obtain ⟨nc, nr, o, k, ls⟩ := s
    simp only at honce hlt
    subst honce
    have hc : c.Err = none := herr c (List.mem_cons_self _ _)
    have hrest : ∀ d ∈ rest, d.Err = none := fun d hd => herr d (List.mem_cons_of_mem _ hd)
    have hstep := ih ⟨nc, (nr + c.Data.length) % 2 ^ 64, false, k + 1, ls⟩ hrest rfl
      (Nat.mod_lt _ (by decide))
    rw [chunkLoop]
    simp only [hc, hce, Bool.true_eq_false, Bool.false_eq_true, if_false]
    rw [hstep]
    simp [totalRecords, Nat.add_assoc, Nat.add_comm, Nat.add_left_comm]

theorem chunkLoop_errfree (ce : Option Err → Bool) (hce : ce none = true) (nf : Bool)
    (file : String) (chunks : List CSVRecordsChunk) (herr : ∀ c ∈ chunks, c.Err = none) :
    chunkLoop ce false nf file chunks LoopState.init =
      ({ numCols := firstWidth chunks, numRows := totalRecords chunks % 2 ^ 64,
         once := chunks.isEmpty, consumed := chunks.length, lines := [] }, LoopExit.closed) := by
  cases chunks with
  | nil => simp [chunkLoop, LoopState.init, firstWidth, totalRecords]
  | cons c rest =>
    have hc : c.Err = none := herr c (List.mem_cons_self _ _)
    have hrest : ∀ d ∈ rest, d.Err = none := fun d hd => herr d (List.mem_cons_of_mem _ hd)
    rw [chunkLoop]
    simp only [hc, hce, LoopState.init, Bool.true_eq_false, Bool.false_eq_true, if_false, if_true]
    cases hd : c.Data with
    | nil =>
      simp only []
      rw [chunkLoop_later ce hce nf file rest _ hrest rfl (Nat.mod_lt _ (by decide))]
      simp [firstWidth, totalRecords, hd, Nat.add_comm]
    | cons r recs =>
      simp only []
      rw [chunkLoop_later ce hce nf file rest _ hrest rfl (Nat.mod_lt _ (by decide))]
      simp [firstWidth, totalRecords, hd, Nat.add_comm, Nat.add_left_comm]

theorem countFile_errfree (ce : Option Err → Bool) (hce : ce none = true) (config : Config)
    (fl : Flags) (hcols : fl.cols = false) (st : DimState) (file : String)
    (chunks : List CSVRecordsChunk) (herr : ∀ c ∈ chunks, c.Err = none)
    (hN : totalRecords chunks < 2 ^ 64) :
    countFile ce config fl st file chunks =
      report fl file (firstWidth chunks)
        (specDataRows config.NoHeaderRow (totalRecords chunks)) st := by
  unfold countFile
  rw [hcols, chunkLoop_errfree ce hce fl.noFiles file chunks herr]
  simp only [Nat.mod_eq_of_lt hN, List.map_nil, List.append_nil, Bool.false_eq_true, if_false]
  have hst : ({ st with out := st.out } : DimState) = st := rfl
  rw [hst]
  congr 1
  unfold specDataRows
  cases config.NoHeaderRow <;> by_cases h0 : totalRecords chunks = 0 <;> simp [h0]

theorem dimFile_opened (ce : Option Err → Bool) (config : Config) (fl : Flags) (st : DimState)
    (file : String) (chunks : List CSVRecordsChunk) :
    dimFile ce config fl st file ⟨some chunks, none⟩ = countFile ce config fl st file chunks := rfl

theorem toInt64_small (x : Nat) (h : x < 2 ^ 63) : toInt64 x = (x : Int) := by
  have h1 : x % 2 ^ 64 = x := Nat.mod_eq_of_lt (by omega)
  have h2 : x < 9223372036854775808 := by omega
  unfold toInt64
  rw [h1]
  simp [h2]

theorem report_rows (fl : Flags) (hr : fl.rows = true) (file : String) (a b : Nat)
    (st : DimState) :
    report fl file a b st =
      ({ st with out := st.out ++
          [Written.text (if fl.noFiles then toString b ++ "\n"
            else file ++ "\t" ++ toString b ++ "\n")] }, Step.next) := by
  simp [report, hr, oneCountLine]

theorem report_tabular (fl : Flags) (hr : fl.rows = false) (ht : fl.tabular = true)
    (file : String) (a b : Nat) (st : DimState) :
    report fl file a b st =
      ({ st with out := st.out ++
          [Written.text (if fl.noFiles then toString a ++ "\t" ++ toString b ++ "\n"
            else file ++ "\t" ++ toString a ++ "\t" ++ toString b ++ "\n")] }, Step.next) := by
  simp [report, hr, ht, twoCountLine]

theorem report_table (fl : Flags) (hr : fl.rows = false) (ht : fl.tabular = false)
    (file : String) (a b : Nat) (ha : a < 2 ^ 63) (hb : b < 2 ^ 63) (st : DimState)
    (rs : List TblRow) (hs : st.tbl = some rs) :
    report fl file a b st =
      ({ st with tbl := some (rs ++ [⟨file, (a : Int), (b : Int)⟩]) }, Step.next) := by
  simp [report, hr, ht, hs, toInt64_small a ha, toInt64_small b hb]

theorem dimFile_errfree (ce : Option Err → Bool) (hce : ce none = true) (config : Config)
    (fl : Flags) (hcols : fl.cols = false) (st : DimState) (file : String)
    (chunks : List CSVRecordsChunk) (herr : ∀ c ∈ chunks, c.Err = none)
    (hN : totalRecords chunks < 2 ^ 64) :
    dimFile ce config fl st file ⟨some chunks, none⟩ =
      report fl file (firstWidth chunks)
        (specDataRows config.NoHeaderRow (totalRecords chunks)) st := by
  rw [dimFile_opened]
  exact countFile_errfree ce hce config fl hcols st file chunks herr hN

theorem dimRun_single_table (ce : Option Err → Bool) (config : Config) (fl : Flags)
    (hc : fl.cols = false) (hr : fl.rows = false) (ht : fl.tabular = false) (file : String)
    (o : OpenResult) (row : TblRow)
    (h : dimFile ce config fl ⟨[], some []⟩ file o = (⟨[], some [row]⟩, Step.next)) :
    dimRun ce config fl [(file, o)] =
      (⟨[Written.tableBytes [row]], some [row]⟩, Exit.returned) := by
  have hs : setup fl = ⟨[], some []⟩ := by simp [setup, hc, hr, ht]
  simp [dimRun, dimLoop, hs, h, hc, hr, ht]

/-! ## Row and column counts of `dim` -/

/-- C1: for an error-free chunk stream with `N` records in total (`N` within
the range of the `uint64` counter) and `--cols` not set, the row count that
`dim` reports for the file is `0` when `N = 0`, `N` when `config.NoHeaderRow`
is true and `N - 1` when the header is present and `N ≥ 1`; it never exceeds
`N`, so the unsigned counter does not wrap below zero.  What is written is
spelled out for each mode: the line of `--rows`, the line of `--tabular`, and
otherwise the row added to the table, which a run on the single file writes
at its end (the table takes `int64` values, exact below `2 ^ 63`). -/
theorem dim_row_count (ce : Option Err → Bool) (hce : ce none = true) (config : Config)
    (fl : Flags) (hcols : fl.cols = false) (st : DimState) (file : String)
    (chunks : List CSVRecordsChunk) (herr : ∀ c ∈ chunks, c.Err = none)
    (hN : totalRecords chunks < 2 ^ 64) :
    ∃ numRows : Nat,
      (totalRecords chunks = 0 → numRows = 0) ∧
      (config.NoHeaderRow = true → numRows = totalRecords chunks) ∧
      (config.NoHeaderRow = false → 1 ≤ totalRecords chunks →
        numRows = totalRecords chunks - 1) ∧
      numRows ≤ totalRecords chunks ∧
      (fl.rows = true →
        dimFile ce config fl st file ⟨some chunks, none⟩ =
          ({ st with out := st.out ++
              [Written.text (if fl.noFiles then toString numRows ++ "\n"
                else file ++ "\t" ++ toString numRows ++ "\n")] }, Step.next)) ∧
      (fl.rows = false → fl.tabular = true →
        dimFile ce config fl st file ⟨some chunks, none⟩ =
          ({ st with out := st.out ++
              [Written.text (if fl.noFiles then
                  toString (firstWidth chunks) ++ "\t" ++ toString numRows ++ "\n"
                else file ++ "\t" ++ toString (firstWidth chunks) ++ "\t" ++
                  toString numRows ++ "\n")] }, Step.next)) ∧
      (fl.rows = false → fl.tabular = false → firstWidth chunks < 2 ^ 63 → numRows < 2 ^ 63 →
        (∀ rs : List TblRow, st.tbl = some rs →
          dimFile ce config fl st file ⟨some chunks, none⟩ =
            ({ st with tbl := some (rs ++
                [⟨file, (firstWidth chunks : Int), (numRows : Int)⟩]) }, Step.next)) ∧
        dimRun ce config fl [(file, ⟨some chunks, none⟩)] =
          (⟨[Written.tableBytes [⟨file, (firstWidth chunks : Int), (numRows : Int)⟩]],
              some [⟨file, (firstWidth chunks : Int), (numRows : Int)⟩]⟩, Exit.returned)) := by
  have hfile : ∀ st1 : DimState, dimFile ce config fl st1 file ⟨some chunks, none⟩ =
      report fl file (firstWidth chunks)
        (specDataRows config.NoHeaderRow (totalRecords chunks)) st1 :=
    fun st1 => dimFile_errfree ce hce config fl hcols st1 file chunks herr hN
  refine ⟨specDataRows config.NoHeaderRow (totalRecords chunks), ?_, ?_, ?_, ?_, ?_, ?_, ?_⟩
  · intro h0
    simp [specDataRows, h0]
  · intro hh
    simp only [specDataRows, hh, if_true]
    split <;> omega
  · intro hh h1
    have : totalRecords chunks ≠ 0 := by omega
    simp [specDataRows, hh, this]
  · unfold specDataRows
    split
    · omega
    · split <;> omega
  · intro hr
    rw [hfile, report_rows fl hr]
  · intro hr ht
    rw [hfile, report_tabular fl hr ht]
  · intro hr ht ha hb
    refine ⟨?_, ?_⟩
    · intro rs hs
      rw [hfile, report_table fl hr ht file _ _ ha hb st rs hs]
    · apply dimRun_single_table ce config fl hcols hr ht
      rw [hfile, report_table fl hr ht file _ _ ha hb ⟨[], some []⟩ [] rfl]
      rfl

/-- A stream that holds only the header record, read with the header present:
with `--rows` the line written for the file carries `0`, and in the default
mode the table that is written holds the row `a.csv`, `2`, `0`. -/
theorem dim_row_count_witness :
    (∃ numRows : Nat, numRows = 0 ∧
      dimFile checkErrorExit ⟨false⟩ ⟨false, false, true, false⟩ ⟨[], none⟩ "a.csv"
          ⟨some [⟨[["id", "name"]], none⟩], none⟩ =
        (⟨[] ++ [Written.text (if false then toString numRows ++ "\n"
            else "a.csv" ++ "\t" ++ toString numRows ++ "\n")], none⟩, Step.next)) ∧
    (∃ numRows : Nat, numRows = 0 ∧
      dimRun checkErrorExit ⟨false⟩ ⟨false, false, false, false⟩
          [("a.csv", ⟨some [⟨[["id", "name"]], none⟩], none⟩)] =
        (⟨[Written.tableBytes [⟨"a.csv", 2, (numRows : Int)⟩]],
            some [⟨"a.csv", 2, (numRows : Int)⟩]⟩, Exit.returned)) :=
  ⟨match dim_row_count checkErrorExit rfl ⟨false⟩ ⟨false, false, true, false⟩ rfl ⟨[], none⟩
      "a.csv" [⟨[["id", "name"]], none⟩] (by decide) (by decide) with
    | ⟨n, _, _, h3, _, h5, _⟩ => ⟨n, h3 rfl (by decide), h5 rfl⟩,
   match dim_row_count checkErrorExit rfl ⟨false⟩ ⟨false, false, false, false⟩ rfl ⟨[], some []⟩
      "a.csv" [⟨[["id", "name"]], none⟩] (by decide) (by decide) with
    | ⟨n, _, _, h3, h4, _, _, h7⟩ =>
      have hn : n = 0 := h3 rfl (by decide)
      ⟨n, hn, (h7 rfl rfl (by decide) (by rw [hn]; decide)).2⟩⟩

/-- C2: for an error-free chunk stream whose first chunk is non-empty, the
column count that `dim` reports is the width of the first record of that
chunk, whatever the later records and chunks are: it is the number on the
`--cols` line, the first number on the `--tabular` line and the first number
of the row added to the table (an `int64`, exact below `2 ^ 63`); the
`--rows` line carries no column count.  Next to it stands the data-row count
of the whole stream, so the result depends on the rest of the stream only
through its number of records.  For the records `[a,b,c]`, `[1,2,3]`,
`[4,5,6]` with the header present the tabular line is `f.csv<TAB>3<TAB>2`, in
one chunk or split in two, and the table row is `f.csv`, `3`, `2`. -/
theorem dim_col_count :
    (∀ (ce : Option Err → Bool) (config : Config) (fl : Flags) (st : DimState) (file : String)
        (record : List String) (records : List (List String)) (rest : List CSVRecordsChunk),
        ce none = true → (∀ c ∈ rest, c.Err = none) →
        totalRecords (⟨record :: records, none⟩ :: rest) < 2 ^ 64 →
        (fl.cols = true →
          dimFile ce config fl st file ⟨some (⟨record :: records, none⟩ :: rest), none⟩ =
            ({ st with out := st.out ++
                [Written.text (if fl.noFiles then toString record.length ++ "\n"
                  else file ++ "\t" ++ toString record.length ++ "\n")] }, Step.next)) ∧
        (fl.cols = false → fl.rows = true →
          dimFile ce config fl st file ⟨some (⟨record :: records, none⟩ :: rest), none⟩ =
            ({ st with out := st.out ++
                [Written.text (if fl.noFiles then
                    toString (specDataRows config.NoHeaderRow
                      (totalRecords (⟨record :: records, none⟩ :: rest))) ++ "\n"
                  else file ++ "\t" ++
                    toString (specDataRows config.NoHeaderRow
                      (totalRecords (⟨record :: records, none⟩ :: rest))) ++ "\n")] },
              Step.next)) ∧
        (fl.cols = false → fl.rows = false → fl.tabular = true →
          dimFile ce config fl st file ⟨some (⟨record :: records, none⟩ :: rest), none⟩ =
            ({ st with out := st.out ++
                [Written.text (if fl.noFiles then
                    toString record.length ++ "\t" ++
                      toString (specDataRows config.NoHeaderRow
                        (totalRecords (⟨record :: records, none⟩ :: rest))) ++ "\n"
                  else file ++ "\t" ++ toString record.length ++ "\t" ++
                    toString (specDataRows config.NoHeaderRow
                      (totalRecords (⟨record :: records, none⟩ :: rest))) ++ "\n")] },
              Step.next)) ∧
        (fl.cols = false → fl.rows = false → fl.tabular = false → record.length < 2 ^ 63 →
          specDataRows config.NoHeaderRow
            (totalRecords (⟨record :: records, none⟩ :: rest)) < 2 ^ 63 →
          ∀ rs : List TblRow, st.tbl = some rs →
            dimFile ce config fl st file ⟨some (⟨record :: records, none⟩ :: rest), none⟩ =
              ({ st with tbl := some (rs ++ [⟨file, (record.length : Int),
                  ((specDataRows config.NoHeaderRow
                    (totalRecords (⟨record :: records, none⟩ :: rest)) : Nat) : Int)⟩]) },
                Step.next))) ∧
    dimRun checkErrorExit ⟨false⟩ ⟨true, false, false, false⟩
        [("f.csv", ⟨some [⟨[["a", "b", "c"], ["1", "2", "3"], ["4", "5", "6"]], none⟩], none⟩)] =
      (⟨[Written.text "file\tnum_cols\tnum_rows\n", Written.text "f.csv\t3\t2\n"], none⟩,
        Exit.returned) ∧
    dimRun checkErrorExit ⟨false⟩ ⟨true, false, false, false⟩
        [("f.csv", ⟨some [⟨[["a", "b", "c"], ["1", "2", "3"]], none⟩, ⟨[["4", "5", "6"]], none⟩],
          none⟩)] =
      (⟨[Written.text "file\tnum_cols\tnum_rows\n", Written.text "f.csv\t3\t2\n"], none⟩,
        Exit.returned) ∧
    dimRun checkErrorExit ⟨false⟩ ⟨false, false, false, false⟩
        [("f.csv", ⟨some [⟨[["a", "b", "c"], ["1", "2", "3"]], none⟩, ⟨[["4", "5", "6"]], none⟩],
          none⟩)] =
      (⟨[Written.tableBytes [⟨"f.csv", 3, 2⟩]], some [⟨"f.csv", 3, 2⟩]⟩, Exit.returned) ∧
    dimRun checkErrorExit ⟨false⟩ ⟨false, true, false, false⟩
        [("f.csv", ⟨some [⟨[["a", "b", "c"], ["1", "2", "3"]], none⟩, ⟨[["4", "5", "6"]], none⟩],
          none⟩)] =
      (⟨[Written.text "f.csv\t3\n"], none⟩, Exit.returned) := by
  refine ⟨?_, by decide, by decide, by decide, by decide⟩
  intro ce config fl st file record records rest hce herr hN
  have herr2 : ∀ c ∈ (⟨record :: records, none⟩ : CSVRecordsChunk) :: rest, c.Err = none := by
    intro c hcm
    rcases List.mem_cons.mp hcm with h | h
    · rw [h]
    · exact herr c h
  have hfw : firstWidth ((⟨record :: records, none⟩ : CSVRecordsChunk) :: rest) =
      record.length := rfl
  have hfile : fl.cols = false → ∀ st1 : DimState,
      dimFile ce config fl st1 file ⟨some (⟨record :: records, none⟩ :: rest), none⟩ =
        report fl file record.length
          (specDataRows config.NoHeaderRow
            (totalRecords (⟨record :: records, none⟩ :: rest))) st1 := by
    intro hc st1
    rw [dimFile_errfree ce hce config fl hc st1 file _ herr2 hN, hfw]
  refine ⟨?_, ?_, ?_, ?_⟩
  · intro hc
    rw [dimFile_opened]
    unfold countFile
    rw [hc, chunkLoop]
    simp [hce, LoopState.init, oneCountLine]
  · intro hc hr
    rw [hfile hc, report_rows fl hr]
  · intro hc hr ht
    rw [hfile hc, report_tabular fl hr ht]
  · intro hc hr ht ha hb rs hs
    rw [hfile hc, report_table fl hr ht file _ _ ha hb st rs hs]

/-- The header `a,b,c` followed by two data records delivered in a second chunk
whose records are narrower: with `--cols --no-files` the line carries `3`, and
in the default mode the row added to the table is `f.csv`, `3`, `2`. -/
theorem dim_col_count_witness :
    dimFile checkErrorExit ⟨false⟩ ⟨false, true, false, true⟩ ⟨[], none⟩ "f.csv"
        ⟨some [⟨[["a", "b", "c"]], none⟩, ⟨[["1"], ["4", "5"]], none⟩], none⟩ =
      (⟨[Written.text "3\n"], none⟩, Step.next) ∧
    dimFile checkErrorExit ⟨false⟩ ⟨false, false, false, false⟩ ⟨[], some []⟩ "f.csv"
        ⟨some [⟨[["a", "b", "c"]], none⟩, ⟨[["1"], ["4", "5"]], none⟩], none⟩ =
      (⟨[], some [⟨"f.csv", 3, 2⟩]⟩, Step.next) :=
  ⟨(dim_col_count.1 checkErrorExit ⟨false⟩ ⟨false, true, false, true⟩ ⟨[], none⟩ "f.csv"
      ["a", "b", "c"] [] [⟨[["1"], ["4", "5"]], none⟩] rfl (by decide) (by decide)).1 rfl,
   (dim_col_count.1 checkErrorExit ⟨false⟩ ⟨false, false, false, false⟩ ⟨[], some []⟩ "f.csv"
      ["a", "b", "c"] [] [⟨[["1"], ["4", "5"]], none⟩] rfl (by decide) (by decide)).2.2.2
      rfl rfl rfl (by decide) (by decide) [] rfl⟩

/-! ## Early stop and chunk errors -/

/-- C5: with `--cols`, on a stream whose first chunk carries no error, the
loop receives exactly one chunk and leaves by `break`, and exactly one line is
written for the file, carrying the width of the first record of that chunk
(`0` when the chunk has no record), with the file name in front unless
`--no-files`; the result is the same for any two streams with that first
chunk, whatever errors later chunks carry. -/
theorem dim_cols_early_stop (ce : Option Err → Bool) (hce : ce none = true) (config : Config)
    (fl : Flags) (hcols : fl.cols = true) (st : DimState) (file : String)
    (chunk : CSVRecordsChunk) (hchunk : chunk.Err = none) (rest : List CSVRecordsChunk) :
    ∃ w : Nat,
      (∀ record records, chunk.Data = record :: records → w = record.length) ∧
      (chunk.Data = [] → w = 0) ∧
      (chunkLoop ce fl.cols fl.noFiles file (chunk :: rest) LoopState.init).1.consumed = 1 ∧
      (chunkLoop ce fl.cols fl.noFiles file (chunk :: rest) LoopState.init).2 = LoopExit.broke ∧
      dimFile ce config fl st file ⟨some (chunk :: rest), none⟩ =
        ({ st with out := st.out ++
            [Written.text (if fl.noFiles then toString w ++ "\n"
              else file ++ "\t" ++ toString w ++ "\n")] }, Step.next) ∧
      ∀ rest2 : List CSVRecordsChunk,
        dimFile ce config fl st file ⟨some (chunk :: rest2), none⟩ =
          dimFile ce config fl st file ⟨some (chunk :: rest), none⟩ := by
  have hloop : ∀ tl : List CSVRecordsChunk,
      chunkLoop ce true fl.noFiles file (chunk :: tl) LoopState.init =
        ({ numCols := firstWidth [chunk], numRows := chunk.Data.length % 2 ^ 64, once := true,
           consumed := 1,
           lines := [oneCountLine fl.noFiles file (firstWidth [chunk])] }, LoopExit.broke) := by
    intro tl
    rw [chunkLoop]
    simp only [hchunk, hce, LoopState.init, Bool.true_eq_false, if_false, if_true]
    cases hd : chunk.Data <;> simp [firstWidth, hd]
  have hfile : ∀ tl : List CSVRecordsChunk,
      dimFile ce config fl st file ⟨some (chunk :: tl), none⟩ =
        ({ st with out := st.out ++
            [Written.text (oneCountLine fl.noFiles file (firstWidth [chunk]))] }, Step.next) := by
    intro tl
    rw [dimFile_opened]
    unfold countFile
    rw [hcols, hloop tl]
    simp
  refine ⟨firstWidth [chunk], ?_, ?_, ?_, ?_, ?_, ?_⟩
  · intro record records hd
    simp [firstWidth, hd]
  · intro hd
    simp [firstWidth, hd]
  · rw [hcols, hloop rest]
  · rw [hcols, hloop rest]
  · rw [hfile rest]
    rfl
  · intro rest2
    rw [hfile rest2, hfile rest]

/-- The first chunk holds the header `id,name`; the second chunk carries a
parse error that `--cols` never reads. -/
theorem dim_cols_early_stop_witness :
    ∃ w : Nat,
      (∀ record records, [["id", "name"]] = record :: records → w = record.length) ∧
      (([["id", "name"]] : List (List String)) = [] → w = 0) ∧
      (chunkLoop checkErrorExit true false "a.csv"
        [⟨[["id", "name"]], none⟩, ⟨[], some (Err.other "bare quote")⟩]
        LoopState.init).1.consumed = 1 ∧
      (chunkLoop checkErrorExit true false "a.csv"
        [⟨[["id", "name"]], none⟩, ⟨[], some (Err.other "bare quote")⟩]
        LoopState.init).2 = LoopExit.broke ∧
      dimFile checkErrorExit ⟨false⟩ ⟨false, true, false, false⟩ ⟨[], none⟩ "a.csv"
          ⟨some [⟨[["id", "name"]], none⟩, ⟨[], some (Err.other "bare quote")⟩], none⟩ =
        (⟨[] ++ [Written.text (if false then toString w ++ "\n"
              else "a.csv" ++ "\t" ++ toString w ++ "\n")], none⟩, Step.next) ∧
      ∀ rest2 : List CSVRecordsChunk,
        dimFile checkErrorExit ⟨false⟩ ⟨false, true, false, false⟩ ⟨[], none⟩ "a.csv"
            ⟨some (⟨[["id", "name"]], none⟩ :: rest2), none⟩ =
          dimFile checkErrorExit ⟨false⟩ ⟨false, true, false, false⟩ ⟨[], none⟩ "a.csv"
            ⟨some [⟨[["id", "name"]], none⟩, ⟨[], some (Err.other "bare quote")⟩], none⟩ :=
  dim_cols_early_stop checkErrorExit rfl ⟨false⟩ ⟨false, true, false, false⟩ rfl ⟨[], none⟩
    "a.csv" ⟨[["id", "name"]], none⟩ rfl [⟨[], some (Err.other "bare quote")⟩]

theorem chunkLoop_halts_at (ce : Option Err → Bool) (hce : ce none = true) (cols nf : Bool)
    (file : String) (chunk : CSVRecordsChunk) (hchunk : ce chunk.Err = false)
    (later : List CSVRecordsChunk) (before : List CSVRecordsChunk) :
    ∀ s : LoopState, (∀ c ∈ before, c.Err = none) →
      chunkLoop ce cols nf file (before ++ chunk :: later) s =
        match chunkLoop ce cols nf file before s with
        | (s1, LoopExit.closed) => ({ s1 with consumed := s1.consumed + 1 }, LoopExit.halted)
        | r => r := by
  induction before with
  | nil =>
    intro s _
    simp [chunkLoop, hchunk]
  | cons c rest ih =>
    intro s herr
    have hc : c.Err = none := herr c (List.mem_cons_self _ _)
    have hrest : ∀ d ∈ rest, d.Err = none := fun d hd => herr d (List.mem_cons_of_mem _ hd)
    rw [List.cons_append, chunkLoop, chunkLoop]
    simp only [hc, hce, Bool.true_eq_false, if_false]
    by_cases ho : s.once = true
    · simp only [ho, if_true]
      cases cols with
      | true => simp
      | false =>
        simp only [Bool.false_eq_true, if_false]
        exact ih _ hrest
    · simp only [ho, if_false]
      exact ih _ hrest

/-- C6: `checkError(chunk.Err)` runs before the records of the chunk are used.
With a `checkError` that does not return on an error, for a stream whose first
erroring chunk comes after the error-free chunks `before`: the counters
`numRows` and `numCols` end with the values the chunks of `before` alone give
them, whatever the erroring chunk and the later chunks hold; and when
`--cols` is not set the loop is left at that chunk, after `before.length + 1`
receives, nothing is written for the file and the loop over the files
stops. -/
theorem dim_error_before_use (ce : Option Err → Bool) (hce : ce none = true)
    (hhalt : ∀ e, ce (some e) = false) (config : Config) (fl : Flags) (st : DimState)
    (file : String) (before : List CSVRecordsChunk) (hbefore : ∀ c ∈ before, c.Err = none)
    (chunk : CSVRecordsChunk) (e : Err) (hchunk : chunk.Err = some e)
    (later : List CSVRecordsChunk) :
    (chunkLoop ce fl.cols fl.noFiles file (before ++ chunk :: later) LoopState.init).1.numRows =
        (chunkLoop ce fl.cols fl.noFiles file before LoopState.init).1.numRows ∧
    (chunkLoop ce fl.cols fl.noFiles file (before ++ chunk :: later) LoopState.init).1.numCols =
        (chunkLoop ce fl.cols fl.noFiles file before LoopState.init).1.numCols ∧
    (fl.cols = false →
      chunkLoop ce fl.cols fl.noFiles file (before ++ chunk :: later) LoopState.init =
        ({ numCols := firstWidth before, numRows := totalRecords before % 2 ^ 64,
           once := before.isEmpty, consumed := before.length + 1, lines := [] },
          LoopExit.halted) ∧
      dimFile ce config fl st file ⟨some (before ++ chunk :: later), none⟩ = (st, Step.halt) ∧
      ∀ files : List (String × OpenResult),
        dimLoop ce config fl ((file, ⟨some (before ++ chunk :: later), none⟩) :: files) st =
          (st, Exit.halted)) := by
  have hc : ce chunk.Err = false := by rw [hchunk]; exact hhalt e
  have hgen := chunkLoop_halts_at ce hce fl.cols fl.noFiles file chunk hc later before
    LoopState.init hbefore
  refine ⟨?_, ?_, ?_⟩
  · rw [hgen]
    split
    · next s1 heq => rw [heq]
    · rfl
  · rw [hgen]
    split
    · next s1 heq => rw [heq]
    · rfl
  · intro hcols
    have hloop : chunkLoop ce fl.cols fl.noFiles file (before ++ chunk :: later) LoopState.init =
        ({ numCols := firstWidth before, numRows := totalRecords before % 2 ^ 64,
           once := before.isEmpty, consumed := before.length + 1, lines := [] },
          LoopExit.halted) := by
      rw [hgen, hcols, chunkLoop_errfree ce hce fl.noFiles file before hbefore]
    have hfile : dimFile ce config fl st file ⟨some (before ++ chunk :: later), none⟩ =
        (st, Step.halt) := by
      rw [dimFile_opened]
      unfold countFile
      rw [hloop]
      simp
    refine ⟨hloop, hfile, ?_⟩
    intro files
    rw [dimLoop, hfile]

/-- Two error-free chunks with three records, then a chunk with a parse error
and two records, then one more chunk; `--rows` is set. -/
theorem dim_error_before_use_witness :
    (chunkLoop checkErrorExit false false "a.csv"
        ([⟨[["id", "name"], ["1", "x"]], none⟩, ⟨[["2", "y"]], none⟩] ++
          ⟨[["3", "z"], ["4"]], some (Err.other "bare quote")⟩ :: [⟨[["5", "w"]], none⟩])
        LoopState.init).1.numRows = 3 ∧
      dimLoop checkErrorExit ⟨false⟩ ⟨false, false, true, false⟩
        [("a.csv", ⟨some ([⟨[["id", "name"], ["1", "x"]], none⟩, ⟨[["2", "y"]], none⟩] ++
            ⟨[["3", "z"], ["4"]], some (Err.other "bare quote")⟩ :: [⟨[["5", "w"]], none⟩]),
          none⟩),
         ("b.csv", ⟨some [⟨[["id"]], none⟩], none⟩)] ⟨[], none⟩ = (⟨[], none⟩, Exit.halted) :=
  have h := dim_error_before_use checkErrorExit rfl (fun _ => rfl) ⟨false⟩
    ⟨false, false, true, false⟩ ⟨[], none⟩ "a.csv"
    [⟨[["id", "name"], ["1", "x"]], none⟩, ⟨[["2", "y"]], none⟩] (by decide)
    ⟨[["3", "z"], ["4"]], some (Err.other "bare quote")⟩ (Err.other "bare quote") rfl
    [⟨[["5", "w"]], none⟩]
  ⟨h.1, (h.2.2 rfl).2.2 [("b.csv", ⟨some [⟨[["id"]], none⟩], none⟩)]⟩

/-! ## Batches of files -/

theorem exists_first_error (chunks : List CSVRecordsChunk)
    (h : chunks.any (fun c => c.Err.isSome) = true) :
    ∃ before chunk later e, chunks = before ++ chunk :: later ∧
      (∀ c ∈ before, c.Err = none) ∧ chunk.Err = some e := by
  induction chunks with
  | nil => simp at h
  | cons c rest ih =>
    cases hc : c.Err with
    | some e => exact ⟨[], c, rest, e, rfl, by simp, hc⟩
    | none =>
      have hr : rest.any (fun c => c.Err.isSome) = true := by
        simpa [List.any_cons, hc] using h
      obtain ⟨before, chunk, later, e, heq, hb, he⟩ := ih hr
      refine ⟨c :: before, chunk, later, e, by rw [heq]; rfl, ?_, he⟩
      intro d hd
      rcases List.mem_cons.mp hd with h1 | h1
      · rw [h1]; exact hc
      · exact hb d h1

theorem countFile_chunk_error (ce : Option Err → Bool) (hce : ce none = true)
    (hhalt : ∀ e, ce (some e) = false) (config : Config) (fl : Flags) (st : DimState)
    (file : String) (chunks : List CSVRecordsChunk)
    (h : fileFails fl.cols ⟨some chunks, none⟩ = true) :
    countFile ce config fl st file chunks = (st, Step.halt) := by
  cases hcols : fl.cols with
  | true =>
    rw [hcols] at h
    cases chunks with
    | nil => simp [fileFails] at h
    | cons c rest =>
      simp only [fileFails, if_true] at h
      obtain ⟨e, he⟩ := Option.isSome_iff_exists.mp h
      unfold countFile
      rw [chunkLoop]
      simp [he, hhalt, LoopState.init]
  | false =>
    rw [hcols] at h
    simp only [fileFails, Bool.false_eq_true, if_false] at h
    obtain ⟨before, chunk, later, e, heq, hb, he⟩ := exists_first_error chunks h
    have hc : ce chunk.Err = false := by rw [he]; exact hhalt e
    unfold countFile
    rw [heq, hcols, chunkLoop_halts_at ce hce false fl.noFiles file chunk hc later before
      LoopState.init hb, chunkLoop_errfree ce hce fl.noFiles file before hb]
    simp

theorem dimFile_fails (ce : Option Err → Bool) (hce : ce none = true)
    (hhalt : ∀ e, ce (some e) = false) (config : Config) (fl : Flags) (st : DimState)
    (file : String) (o : OpenResult) (h : fileFails fl.cols o = true) :
    dimFile ce config fl st file o = (st, Step.halt) := by
  obtain ⟨rd, err⟩ := o
  cases err with
  | some e =>
    cases e with
    | ErrNoContent => simp [fileFails] at h
    | other msg => simp [dimFile, hhalt]
  | none =>
    cases rd with
    | none => simp [fileFails] at h
    | some chunks =>
      rw [dimFile_opened]
      exact countFile_chunk_error ce hce hhalt config fl st file chunks h

theorem dimLoop_append (ce : Option Err → Bool) (config : Config) (fl : Flags)
    (earlier rest : List (String × OpenResult)) :
    ∀ st : DimState, dimLoop ce config fl (earlier ++ rest) st =
      match dimLoop ce config fl earlier st with
      | (st1, Exit.returned) => dimLoop ce config fl rest st1
      | r => r := by
  induction earlier with
  | nil => intro st; simp [dimLoop]
  | cons x xs ih =>
    intro st
    obtain ⟨file, o⟩ := x
    rw [List.cons_append, dimLoop, dimLoop]
    rcases hd : dimFile ce config fl st file o with ⟨st1, stp⟩
    cases stp with
    | next => simp only []; exact ih st1
    | halt => rfl
    | panic => rfl

/-- C3: on `xopen.ErrNoContent` the file is reported with the counts `0` and
`0` through the three-way report, which is written for `--rows`, for
`--tabular` and for the table, not for `--cols`: started from the table setup
the report panics exactly when `--cols` is set without `--rows` and
`--tabular`, because `tbl` is then nil.  With `--cols` alone an empty first
file ends the command in a panic, whatever files follow. -/
theorem dim_no_content_cols_panics :
    (∀ (ce : Option Err → Bool) (config : Config) (fl : Flags) (st : DimState) (file : String)
        (rd : Option (List CSVRecordsChunk)),
        dimFile ce config fl st file ⟨rd, some Err.ErrNoContent⟩ = report fl file 0 0 st) ∧
    (∀ (fl : Flags) (file : String),
        (report fl file 0 0 (setup fl)).2 =
          if fl.cols && !fl.rows && !fl.tabular then Step.panic else Step.next) ∧
    (∀ (ce : Option Err → Bool) (config : Config) (noFiles : Bool)
        (rest : List (String × OpenResult)),
        dimRun ce config ⟨false, true, false, noFiles⟩
            (("empty.csv", ⟨none, some Err.ErrNoContent⟩) :: rest) =
          (⟨[], none⟩, Exit.panicked)) := by
  refine ⟨?_, ?_, ?_⟩
  · intro ce config fl st file rd
    rfl
  · intro fl file
    obtain ⟨t, c, r, n⟩ := fl
    cases t <;> cases c <;> cases r <;> simp [report, setup]
  · intro ce config noFiles rest
    rfl

/-- C4, as the specification states it, fails: the open of `a.csv` returns an
error and a nil reader, and `b.csv`, which alone is reported with one data
row, is never reported, whether `checkError` terminates the process or
returns to its caller. -/
theorem dim_batch_stops_counterexample :
    dimRun checkErrorExit ⟨false⟩ ⟨false, false, true, false⟩
        [("a.csv", ⟨none, some (Err.other "open a.csv: no such file or directory")⟩),
         ("b.csv", ⟨some [⟨[["id"], ["1"]], none⟩], none⟩)] = (⟨[], none⟩, Exit.halted) ∧
    dimRun (fun _ => true) ⟨false⟩ ⟨false, false, true, false⟩
        [("a.csv", ⟨none, some (Err.other "open a.csv: no such file or directory")⟩),
         ("b.csv", ⟨some [⟨[["id"], ["1"]], none⟩], none⟩)] = (⟨[], none⟩, Exit.panicked) ∧
    dimRun checkErrorExit ⟨false⟩ ⟨false, false, true, false⟩
        [("b.csv", ⟨some [⟨[["id"], ["1"]], none⟩], none⟩)] =
      (⟨[Written.text "b.csv\t1\n"], none⟩, Exit.returned) := by
  decide

/-- C4, amended: with a `checkError` that does not return on an error, when
`dim` meets an error in a file (the open returns an error other than
`xopen.ErrNoContent`, or a chunk that the loop receives carries an error), no
file after it is processed or reported: the run ends the same way whatever
files follow the failing one, and it does not return normally. -/
theorem dim_stops_at_failing_file (ce : Option Err → Bool) (hce : ce none = true)
    (hhalt : ∀ e, ce (some e) = false) (config : Config) (fl : Flags) (file : String)
    (o : OpenResult) (hfail : fileFails fl.cols o = true)
    (earlier later : List (String × OpenResult)) :
    dimRun ce config fl (earlier ++ (file, o) :: later) =
      dimRun ce config fl (earlier ++ [(file, o)]) ∧
    (dimRun ce config fl (earlier ++ (file, o) :: later)).2 ≠ Exit.returned := by
  have hloop : ∀ after : List (String × OpenResult),
      dimLoop ce config fl (earlier ++ (file, o) :: after) (setup fl) =
        (match dimLoop ce config fl earlier (setup fl) with
          | (st1, Exit.returned) => (st1, Exit.halted)
          | r => r) := by
    intro after
    rw [dimLoop_append]
    rcases hd : dimLoop ce config fl earlier (setup fl) with ⟨st1, ex⟩
    cases ex with
    | returned =>
      simp only []
      rw [dimLoop, dimFile_fails ce hce hhalt config fl st1 file o hfail]
    | halted => rfl
    | panicked => rfl
  have hrun : ∀ after : List (String × OpenResult),
      dimRun ce config fl (earlier ++ (file, o) :: after) =
        (match dimLoop ce config fl earlier (setup fl) with
          | (st1, Exit.returned) => (st1, Exit.halted)
          | r => r) := by
    intro after
    unfold dimRun
    rw [hloop after]
    rcases hd : dimLoop ce config fl earlier (setup fl) with ⟨st1, ex⟩
    cases ex <;> rfl
  refine ⟨by rw [hrun later, hrun []], ?_⟩
  rw [hrun later]
  rcases hd : dimLoop ce config fl earlier (setup fl) with ⟨st1, ex⟩
  cases ex <;> simp

/-- The second of three files has a parse error in its second chunk: the run
with the third file ends as the run without it, halted. -/
theorem dim_stops_at_failing_file_witness :
    dimRun checkErrorExit ⟨false⟩ ⟨false, false, true, false⟩
        ([("a.csv", ⟨some [⟨[["id"], ["1"]], none⟩], none⟩)] ++
          ("b.csv", ⟨some [⟨[["id"]], none⟩, ⟨[], some (Err.other "bare quote")⟩], none⟩) ::
          [("c.csv", ⟨some [⟨[["id"], ["1"], ["2"]], none⟩], none⟩)]) =
      dimRun checkErrorExit ⟨false⟩ ⟨false, false, true, false⟩
        ([("a.csv", ⟨some [⟨[["id"], ["1"]], none⟩], none⟩)] ++
          [("b.csv", ⟨some [⟨[["id"]], none⟩, ⟨[], some (Err.other "bare quote")⟩], none⟩)]) ∧
    (dimRun checkErrorExit ⟨false⟩ ⟨false, false, true, false⟩
        ([("a.csv", ⟨some [⟨[["id"], ["1"]], none⟩], none⟩)] ++
          ("b.csv", ⟨some [⟨[["id"]], none⟩, ⟨[], some (Err.other "bare quote")⟩], none⟩) ::
          [("c.csv", ⟨some [⟨[["id"], ["1"], ["2"]], none⟩], none⟩)])).2 ≠ Exit.returned :=
  dim_stops_at_failing_file checkErrorExit rfl (fun _ => rfl) ⟨false⟩
    ⟨false, false, true, false⟩ "b.csv"
    ⟨some [⟨[["id"]], none⟩, ⟨[], some (Err.other "bare quote")⟩], none⟩ (by decide)
    [("a.csv", ⟨some [⟨[["id"], ["1"]], none⟩], none⟩)]
    [("c.csv", ⟨some [⟨[["id"], ["1"], ["2"]], none⟩], none⟩)]

/-! ## Lemmas on the loops of `pretty` -/

theorem assign_append (vs : List Cell) :
    ∀ (a b : List Cell), vs.length ≤ b.length →
      assign a.length vs (a ++ b) = some (a ++ vs ++ b.drop vs.length) := by
  induction vs with
  | nil => intro a b _; simp [assign]
  | cons v vs ih =>
    intro a b hlen
    cases b with
    | nil => simp at hlen
    | cons x b =>
      have hlen2 : vs.length ≤ b.length := by simpa using hlen
      have hlt : a.length < (a ++ x :: b).length := by simp
      rw [assign]
      simp only [hlt, if_true]
      have hset : (a ++ x :: b).set a.length v = (a ++ [v]) ++ b := by
        simp [List.set_append_right]
      have hi : a.length + 1 = (a ++ [v]).length := by simp
      rw [hset, hi, ih (a ++ [v]) b hlen2]
      simp

theorem assign_zero (vs r2 : List Cell) (h : vs.length ≤ r2.length) :
    assign 0 vs r2 = some (vs ++ r2.drop vs.length) := by
  have := assign_append vs [] r2 h
  simpa using this

theorem widenBy_append (record : List String) :
    ∀ (a b : List Nat), record.length ≤ b.length →
      widenBy a.length record (a ++ b) = some (a ++ widened record b) := by
  induction record with
  | nil => intro a b _; simp [widenBy, widened]
  | cons r rs ih =>
    intro a b hlen
    cases b with
    | nil => simp at hlen
    | cons x b =>
      have hlen2 : rs.length ≤ b.length := by simpa using hlen
      have hget : (a ++ x :: b)[a.length]? = some x := by
        rw [List.getElem?_append_right (Nat.le_refl _)]
        simp
      have hi : a.length + 1 = (a ++ [max x r.utf8ByteSize]).length := by simp
      have hnext : (if r.utf8ByteSize > x then (a ++ x :: b).set a.length r.utf8ByteSize
          else a ++ x :: b) = (a ++ [max x r.utf8ByteSize]) ++ b := by
        by_cases hgt : r.utf8ByteSize > x
        · have hmax : max x r.utf8ByteSize = r.utf8ByteSize := by omega
          simp [hgt, hmax, List.set_append_right]
        · have hmax : max x r.utf8ByteSize = x := by omega
          simp [hgt, hmax]
      rw [widenBy]
      simp only [hget]
      rw [hnext, hi, ih _ b hlen2]
      simp [widened]

theorem widenBy_zero (record : List String) (m : List Nat) (h : record.length ≤ m.length) :
    widenBy 0 record m = some (widened record m) := by
  have := widenBy_append record [] m h
  simpa using this

theorem widened_length (record : List String) :
    ∀ b : List Nat, (widened record b).length = b.length := by
  induction record with
  | nil => intro b; simp [widened]
  | cons r rs ih =>
    intro b
    cases b with
    | nil => simp [widened]
    | cons x b => simp [widened, ih b]

theorem widened_getElem? (record : List String) :
    ∀ (b : List Nat) (j : Nat),
      (widened record b)[j]? = (b[j]?).map (fun x => max x (record.getD j "").utf8ByteSize) := by
  induction record with
  | nil =>
    intro b j
    cases hb : b[j]? with
    | none => simp [widened, hb]
    | some x =>
      have h0 : ("" : String).utf8ByteSize = 0 := by decide
      simp [widened, hb, h0]
  | cons r rs ih =>
    intro b j
    cases b with
    | nil => simp [widened]
    | cons x b =>
      cases j with
      | zero => simp [widened]
      | succ j => simp [widened, ih b j]

theorem widenAll_spec (data : List (List String)) :
    ∀ m : List Nat, (∀ record ∈ data, record.length ≤ m.length) →
      ∃ m1, widenAll data m = some m1 ∧ m1.length = m.length ∧
        ∀ j, m1[j]? = (m[j]?).map (fun x =>
          data.foldl (fun acc record => max acc (record.getD j "").utf8ByteSize) x) := by
  induction data with
  | nil =>
    intro m _
    refine ⟨m, rfl, rfl, ?_⟩
    intro j
    cases m[j]? <;> simp
  | cons record rest ih =>
    intro m hw
    have hrec : record.length ≤ m.length := hw record (List.mem_cons_self _ _)
    have hrest : ∀ r ∈ rest, r.length ≤ (widened record m).length := by
      intro r hr
      rw [widened_length]
      exact hw r (List.mem_cons_of_mem _ hr)
    obtain ⟨m1, h1, h2, h3⟩ := ih (widened record m) hrest
    refine ⟨m1, ?_, ?_, ?_⟩
    · rw [widenAll, widenBy_zero record m hrec]
      exact h1
    · rw [h2, widened_length]
    · intro j
      rw [h3 j, widened_getElem?]
      cases m[j]? <;> simp

theorem addRows_spec (data : List (List String)) :
    ∀ (r2 : List Cell) (rows : List (List Cell)), (∀ record ∈ data, record.length ≤ r2.length) →
      addRows data r2 rows = some (rows ++ specRows r2 data) := by
  induction data with
  | nil => intro r2 rows _; simp [addRows, specRows]
  | cons record rest ih =>
    intro r2 rows hw
    have hrec : (record.map some).length ≤ r2.length := by
      simpa using hw record (List.mem_cons_self _ _)
    have hlen : (record.map some ++ r2.drop record.length).length = r2.length := by
      have := hw record (List.mem_cons_self _ _)
      simp only [List.length_append, List.length_map, List.length_drop]
      omega
    have hrest : ∀ r ∈ rest, r.length ≤ (record.map some ++ r2.drop record.length).length := by
      intro r hr
      rw [hlen]
      exact hw r (List.mem_cons_of_mem _ hr)
    rw [addRows, assign_zero _ _ hrec]
    simp only [List.length_map]
    rw [ih _ _ hrest]
    simp [specRows]

theorem capLens_getElem? (w : Nat) (m : List Nat) (j : Nat) :
    (capLens w m)[j]? = (m[j]?).map (fun x => if w > 0 then min x w else x) := by
  unfold capLens
  by_cases hw : w > 0
  · simp only [hw, if_true, List.getElem?_map]
    cases m[j]? with
    | none => rfl
    | some x =>
      simp only [Option.map_some']
      congr 1
      by_cases hx : x > w
      · simp only [hx, if_true]; omega
      · simp only [hx, if_false]; omega
  · simp only [hw, if_false]
    cases m[j]? <;> rfl

theorem floorLens_getElem? (w : Nat) (m : List Nat) (j : Nat) :
    (floorLens w m)[j]? = (m[j]?).map (fun x => if w > 0 then max x w else x) := by
  unfold floorLens
  by_cases hw : w > 0
  · simp only [hw, if_true, List.getElem?_map]
    cases m[j]? with
    | none => rfl
    | some x =>
      simp only [Option.map_some']
      congr 1
      by_cases hx : x < w
      · simp only [hx, if_true]; omega
      · simp only [hx, if_false]; omega
  · simp only [hw, if_false]
    cases m[j]? <;> rfl

theorem foldl_max_ge (data : List (List String)) (j : Nat) :
    ∀ x : Nat, x ≤ data.foldl (fun acc record => max acc (record.getD j "").utf8ByteSize) x := by
  induction data with
  | nil => intro x; simp
  | cons record rest ih =>
    intro x
    simp only [List.foldl_cons]
    exact Nat.le_trans (Nat.le_max_left _ _) (ih _)

theorem sepCells_eq (minWidth maxWidth : Nat) (headerRow : List String)
    (data : List (List String)) (hw : ∀ record ∈ data, record.length ≤ headerRow.length) :
    ∃ m1, widenAll data (headerLens headerRow) = some m1 ∧
      (floorLens minWidth (capLens maxWidth m1)).map (fun l => some (dashes l)) =
        specSepRow minWidth maxWidth headerRow data := by
  have hw2 : ∀ record ∈ data, record.length ≤ (headerLens headerRow).length := by
    intro record hr
    simpa [headerLens] using hw record hr
  obtain ⟨m1, h1, h2, h3⟩ := widenAll_spec data (headerLens headerRow) hw2
  refine ⟨m1, h1, ?_⟩
  apply List.ext_getElem?
  intro j
  simp only [List.getElem?_map, floorLens_getElem?, capLens_getElem?, h3, headerLens, specSepRow]
  by_cases hj : j < headerRow.length
  · have hh : headerRow[j]? = some headerRow[j] := List.getElem?_eq_getElem hj
    have hr : (List.range headerRow.length)[j]? = some j := by
      rw [List.getElem?_range hj]
    have hd : headerRow.getD j "" = headerRow[j] := by
      simp [List.getD, hh]
    have hm : (if headerRow[j].utf8ByteSize > 0 then headerRow[j].utf8ByteSize else 1) =
        max 1 headerRow[j].utf8ByteSize := by
      split <;> omega
    simp only [hh, hr, Option.map_some', specSepLen, specColMax, hd, hm]
  · have hh : headerRow[j]? = none := List.getElem?_eq_none (by omega)
    have hr : (List.range headerRow.length)[j]? = none :=
      List.getElem?_eq_none (by simp; omega)
    simp [hh, hr]

theorem specSepRow_length (minWidth maxWidth : Nat) (headerRow : List String)
    (data : List (List String)) :
    (specSepRow minWidth maxWidth headerRow data).length = headerRow.length := by
  simp [specSepRow]

theorem newRecord2_length (headerRow : List String) (data : List (List String)) :
    (newRecord2 headerRow data).length = tableWidth headerRow data := by
  unfold newRecord2 tableWidth
  split
  · simp
  · cases data <;> simp

theorem specRows_length (data : List (List String)) :
    ∀ previous : List Cell, (specRows previous data).length = data.length := by
  induction data with
  | nil => intro previous; rfl
  | cons record rest ih => intro previous; simp [specRows, ih]

theorem specRows_take (data : List (List String)) :
    ∀ (previous : List Cell) (k : Nat) (record : List String), data[k]? = some record →
      ∃ row, (specRows previous data)[k]? = some row ∧
        row.take record.length = record.map some := by
  induction data with
  | nil => intro previous k record h; simp at h
  | cons first rest ih =>
    intro previous k record h
    cases k with
    | zero =>
      simp only [List.getElem?_cons_zero, Option.some.injEq] at h
      subst h
      refine ⟨first.map some ++ previous.drop first.length, by simp [specRows], ?_⟩
      simp [List.take_append_eq_append_take]
    | succ k =>
      simp only [List.getElem?_cons_succ] at h
      obtain ⟨row, h1, h2⟩ := ih (first.map some ++ previous.drop first.length) k record h
      exact ⟨row, by simpa [specRows] using h1, h2⟩

theorem specRows_full (data : List (List String)) :
    ∀ previous : List Cell, (∀ record ∈ data, record.length ≤ previous.length) →
      (specRows previous data = data.map (fun record => record.map some) ↔
        ∀ record ∈ data, record.length = previous.length) := by
  induction data with
  | nil => intro previous _; simp [specRows]
  | cons first rest ih =>
    intro previous hw
    have hfirst : first.length ≤ previous.length := hw first (List.mem_cons_self _ _)
    have hlen : (first.map some ++ previous.drop first.length).length = previous.length := by
      simp only [List.length_append, List.length_map, List.length_drop]
      omega
    have hrest : ∀ r ∈ rest, r.length ≤ (first.map some ++ previous.drop first.length).length := by
      intro r hr
      rw [hlen]
      exact hw r (List.mem_cons_of_mem _ hr)
    have hih := ih _ hrest
    rw [hlen] at hih
    simp only [specRows, List.map_cons, List.cons.injEq, List.mem_cons, forall_eq_or_imp]
    constructor
    · rintro ⟨h1, h2⟩
      have hdrop : previous.drop first.length = [] := by
        have := congrArg List.length h1
        simp only [List.length_append, List.length_map, List.length_drop] at this
        exact List.drop_eq_nil_of_le (by omega)
      exact ⟨by have := List.drop_eq_nil_iff.mp hdrop; omega, hih.mp h2⟩
    · rintro ⟨h1, h2⟩
      have hdrop : previous.drop first.length = [] := List.drop_eq_nil_of_le (by omega)
      refine ⟨by rw [hdrop]; simp, hih.mpr h2⟩

theorem prettyRows_header (ce : Option Err → Bool) (hce : ce none = true)
    (newTable : List Column → Bool) (config : Config) (hcfg : config.NoHeaderRow = false)
    (alignRight : Bool) (minWidth maxWidth : Nat) (headerRow : List String)
    (hne : headerRow ≠ []) (data : List (List String))
    (hw : ∀ record ∈ data, record.length ≤ headerRow.length)
    (hnew : newTable (columnsOf alignRight minWidth maxWidth headerRow) = true) :
    prettyRows ce newTable config alignRight minWidth maxWidth headerRow data =
      PrettyResult.table (columnsOf alignRight minWidth maxWidth headerRow)
        (specSepRow minWidth maxWidth headerRow data ::
          specRows (specSepRow minWidth maxWidth headerRow data) data) := by
  have hpos : headerRow.length > 0 := List.length_pos.mpr hne
  have hn0 : ¬ (headerRow.length = 0 ∧ data.length = 0) := by omega
  have hcn : colnames headerRow data = headerRow := by simp [colnames, hpos]
  have hr2 : (newRecord2 headerRow data).length = headerRow.length := by
    rw [newRecord2_length]; simp [tableWidth, hpos]
  obtain ⟨m1, h1, h2⟩ := sepCells_eq minWidth maxWidth headerRow data hw
  have hsl := specSepRow_length minWidth maxWidth headerRow data
  have hassign : assign 0 (specSepRow minWidth maxWidth headerRow data)
      (newRecord2 headerRow data) = some (specSepRow minWidth maxWidth headerRow data) := by
    rw [assign_zero _ _ (by rw [hsl, hr2])]
    rw [List.drop_eq_nil_of_le (by rw [hsl, hr2])]
    simp
  have hw3 : ∀ record ∈ data,
      record.length ≤ (specSepRow minWidth maxWidth headerRow data).length := by
    intro record hr
    rw [hsl]
    exact hw record hr
  unfold prettyRows separator
  simp only [hn0, if_false, hcn, hnew, hce, hcfg, Bool.not_false, if_true, h1, h2, hassign,
    Bool.true_eq_false]
  rw [addRows_spec data _ _ hw3]
  simp

theorem prettyRows_noheader (ce : Option Err → Bool) (hce : ce none = true)
    (newTable : List Column → Bool) (config : Config) (hcfg : config.NoHeaderRow = true)
    (alignRight : Bool) (minWidth maxWidth : Nat) (headerRow : List String)
    (data : List (List String)) (hne : ¬ (headerRow = [] ∧ data = []))
    (hw : ∀ record ∈ data, record.length ≤ tableWidth headerRow data)
    (hnew : newTable (columnsOf alignRight minWidth maxWidth (colnames headerRow data)) = true) :
    prettyRows ce newTable config alignRight minWidth maxWidth headerRow data =
      PrettyResult.table (columnsOf alignRight minWidth maxWidth (colnames headerRow data))
        (specRows (newRecord2 headerRow data) data) := by
  have hn0 : ¬ (headerRow.length = 0 ∧ data.length = 0) := by
    simpa [List.length_eq_zero] using hne
  have hw3 : ∀ record ∈ data, record.length ≤ (newRecord2 headerRow data).length := by
    intro record hr
    rw [newRecord2_length]
    exact hw record hr
  unfold prettyRows separator
  simp only [hn0, if_false, hnew, hce, hcfg, Bool.not_true, Bool.false_eq_true,
    Bool.true_eq_false]
  rw [addRows_spec data _ _ hw3]
  simp

theorem prettyRows_rejected (ce : Option Err → Bool) (newTable : List Column → Bool)
    (config : Config) (alignRight : Bool) (minWidth maxWidth : Nat) (headerRow : List String)
    (data : List (List String)) (hne : ¬ (headerRow = [] ∧ data = []))
    (hnew : newTable (columnsOf alignRight minWidth maxWidth (colnames headerRow data)) = false) :
    prettyRows ce newTable config alignRight minWidth maxWidth headerRow data =
      PrettyResult.nilPanic := by
  have hn0 : ¬ (headerRow.length = 0 ∧ data.length = 0) := by
    simpa [List.length_eq_zero] using hne
  unfold prettyRows
  simp only [hn0, if_false, hnew, if_true]

theorem prettyRows_no_indexPanic (ce : Option Err → Bool) (newTable : List Column → Bool)
    (config : Config) (alignRight : Bool) (minWidth maxWidth : Nat) (headerRow : List String)
    (data : List (List String))
    (hin : (headerRow ≠ [] ∧ ∀ record ∈ data, record.length ≤ headerRow.length) ∨
      (headerRow = [] ∧ config.NoHeaderRow = true ∧
        ∀ record ∈ data, record.length ≤ (data.headD []).length)) :
    prettyRows ce newTable config alignRight minWidth maxWidth headerRow data ≠
      PrettyResult.indexPanic := by
  by_cases hempty : headerRow = [] ∧ data = []
  · simp [prettyRows, hempty.1, hempty.2]
  · cases hnew : newTable (columnsOf alignRight minWidth maxWidth (colnames headerRow data)) with
    | false =>
      rw [prettyRows_rejected ce newTable config alignRight minWidth maxWidth headerRow data
        hempty hnew]
      exact fun h => PrettyResult.noConfusion h
    | true =>
      cases hce : ce none with
      | false =>
        have hn0 : ¬ (headerRow.length = 0 ∧ data.length = 0) := by
          simpa [List.length_eq_zero] using hempty
        unfold prettyRows
        simp only [hn0, if_false, hnew, hce, if_true, Bool.true_eq_false]
        exact fun h => PrettyResult.noConfusion h
      | true =>
        cases hcfg : config.NoHeaderRow with
        | false =>
          rcases hin with ⟨hne, hw⟩ | ⟨_, hc, _⟩
          · have hpos : headerRow.length > 0 := List.length_pos.mpr hne
            have hcn : colnames headerRow data = headerRow := by simp [colnames, hpos]
            rw [hcn] at hnew
            rw [prettyRows_header ce hce newTable config hcfg alignRight minWidth maxWidth
              headerRow hne data hw hnew]
            exact fun h => PrettyResult.noConfusion h
          · rw [hcfg] at hc
            exact absurd hc (by decide)
        | true =>
          have hw : ∀ record ∈ data, record.length ≤ tableWidth headerRow data := by
            rcases hin with ⟨hne, hw⟩ | ⟨hnil, _, hw⟩
            · have hpos : headerRow.length > 0 := List.length_pos.mpr hne
              simpa [tableWidth, hpos] using hw
            · simpa [tableWidth, hnil] using hw
          rw [prettyRows_noheader ce hce newTable config hcfg alignRight minWidth maxWidth
            headerRow data hempty hw hnew]
          exact fun h => PrettyResult.noConfusion h

theorem specRows_step (data : List (List String)) :
    ∀ (start : List Cell) (k : Nat) (record : List String), data[k]? = some record →
      ∃ previous : List Cell,
        (k = 0 → previous = start) ∧
        (∀ j, k = j + 1 → (specRows start data)[j]? = some previous) ∧
        (specRows start data)[k]? = some (record.map some ++ previous.drop record.length) := by
  induction data with
  | nil => intro start k record h; simp at h
  | cons first rest ih =>
    intro start k record h
    cases k with
    | zero =>
      simp only [List.getElem?_cons_zero, Option.some.injEq] at h
      subst h
      exact ⟨start, fun _ => rfl, fun j hj => by omega, by simp [specRows]⟩
    | succ k =>
      simp only [List.getElem?_cons_succ] at h
      obtain ⟨previous, h0, h1, h2⟩ :=
        ih (first.map some ++ start.drop first.length) k record h
      refine ⟨previous, fun hk => by omega, ?_, by simpa [specRows] using h2⟩
      intro j hj
      have hjk : j = k := by omega
      subst hjk
      cases j with
      | zero => simp [specRows, h0 rfl]
      | succ i => simpa [specRows] using h1 i rfl

theorem specRows_row_length (data : List (List String)) :
    ∀ start : List Cell, (∀ record ∈ data, record.length ≤ start.length) →
      ∀ row ∈ specRows start data, row.length = start.length := by
  induction data with
  | nil => intro start _ row hrow; simp [specRows] at hrow
  | cons first rest ih =>
    intro start hw row hrow
    have hfirst : first.length ≤ start.length := hw first (List.mem_cons_self _ _)
    have hlen : (first.map some ++ start.drop first.length).length = start.length := by
      simp only [List.length_append, List.length_map, List.length_drop]
      omega
    simp only [specRows, List.mem_cons] at hrow
    rcases hrow with h | h
    · rw [h, hlen]
    · have hrest : ∀ r ∈ rest,
          r.length ≤ (first.map some ++ start.drop first.length).length := by
        intro r hr; rw [hlen]; exact hw r (List.mem_cons_of_mem _ hr)
      rw [ih _ hrest row h, hlen]

theorem rows_pointwise (data : List (List String)) (start : List Cell)
    (hw : ∀ record ∈ data, record.length ≤ start.length) (sepRows : List (List Cell))
    (hsep : sepRows = [start] ∨
      (sepRows = [] ∧ ∀ first rest, data = first :: rest → first.length = start.length))
    (k : Nat) (record : List String) (hk : data[k]? = some record) :
    ∃ row : List Cell,
      (sepRows ++ specRows start data)[sepRows.length + k]? = some row ∧
      row.length = start.length ∧
      row.take record.length = record.map some ∧
      (record.length = start.length ∨
        ∃ previous : List Cell, 0 < sepRows.length + k ∧
          (sepRows ++ specRows start data)[sepRows.length + k - 1]? = some previous ∧
          row.drop record.length = previous.drop record.length) := by
  obtain ⟨previous, h0, h1, h2⟩ := specRows_step data start k record hk
  have hidx : (sepRows ++ specRows start data)[sepRows.length + k]? =
      some (record.map some ++ previous.drop record.length) := by
    rw [List.getElem?_append_right (Nat.le_add_right _ _), Nat.add_sub_cancel_left]
    exact h2
  have hdrop : (record.map some ++ previous.drop record.length).drop record.length =
      previous.drop record.length := by
    have hl : (record.map some).length = record.length := by simp
    exact List.drop_left' hl
  refine ⟨record.map some ++ previous.drop record.length, hidx,
    specRows_row_length data start hw _ (List.getElem?_mem h2), ?_, ?_⟩
  · simp [List.take_append_eq_append_take]
  · rcases hsep with hs | ⟨hs, hfirst⟩
    · right
      refine ⟨previous, by rw [hs]; simp, ?_, hdrop⟩
      subst hs
      cases k with
      | zero => simp [h0 rfl]
      | succ j =>
        have := h1 j rfl
        simpa [Nat.add_comm] using this
    · subst hs
      cases k with
      | zero =>
        left
        cases data with
        | nil => simp at hk
        | cons first rest =>
          simp only [List.getElem?_cons_zero, Option.some.injEq] at hk
          rw [← hk]
          exact hfirst first rest rfl
      | succ j =>
        right
        refine ⟨previous, by simp, ?_, hdrop⟩
        simpa using h1 j rfl

/-! ## The table of `pretty` -/

/-- C8, as stated, fails: with the header `id`, the record `1`, a minimum
width of `5` and a maximum width of `3`, the claim gives the separator cell
the length `5`, but `prettytable.NewTable` returns no table for these columns
and the command panics at `tbl.Separator` before any row exists. -/
theorem pretty_separator_width_counterexample :
    specSepLen 5 3 ["id"] [["1"]] 0 = 5 ∧
    prettyRows checkErrorExit prettytableNewTable ⟨false⟩ false 5 3 ["id"] [["1"]] =
      PrettyResult.nilPanic := by
  decide

/-- C8, amended: with the header present (a non-empty header row), no data
record wider than the header and the table created (`prettytable.NewTable`
returns a table for the columns), the first row handed to the table is the
separator: its cell for column `i` is a string of `'-'` only, of length
`L_i`, where `L_i` is the largest byte length in the column (the header field
counted as at least `1`), capped to `maxWidth` when `maxWidth > 0`, then
raised to `minWidth` when `minWidth > 0`.  Hence `L_i ≥ 1`, `L_i ≥ minWidth`,
and `L_i ≤ maxWidth` whenever `0 < maxWidth` and `minWidth ≤ maxWidth`. -/
theorem pretty_separator_width (ce : Option Err → Bool) (hce : ce none = true)
    (newTable : List Column → Bool) (config : Config) (hcfg : config.NoHeaderRow = false)
    (alignRight : Bool) (minWidth maxWidth : Nat) (headerRow : List String)
    (hne : headerRow ≠ []) (data : List (List String))
    (hw : ∀ record ∈ data, record.length ≤ headerRow.length)
    (hnew : newTable (columnsOf alignRight minWidth maxWidth headerRow) = true) :
    ∃ sep rest,
      prettyRows ce newTable config alignRight minWidth maxWidth headerRow data =
        PrettyResult.table (columnsOf alignRight minWidth maxWidth headerRow) (sep :: rest) ∧
      sep.length = headerRow.length ∧
      ∀ i, i < headerRow.length →
        sep[i]? = some (some (String.mk
          (List.replicate (specSepLen minWidth maxWidth headerRow data i) '-'))) ∧
        1 ≤ specSepLen minWidth maxWidth headerRow data i ∧
        minWidth ≤ specSepLen minWidth maxWidth headerRow data i ∧
        (0 < maxWidth → minWidth ≤ maxWidth →
          specSepLen minWidth maxWidth headerRow data i ≤ maxWidth) := by
  refine ⟨specSepRow minWidth maxWidth headerRow data,
    specRows (specSepRow minWidth maxWidth headerRow data) data,
    prettyRows_header ce hce newTable config hcfg alignRight minWidth maxWidth headerRow hne
      data hw hnew,
    specSepRow_length minWidth maxWidth headerRow data, ?_⟩
  intro i hi
  have hm : 1 ≤ specColMax headerRow data i := by
    unfold specColMax
    exact Nat.le_trans (Nat.le_max_left _ _) (foldl_max_ge data i _)
  refine ⟨?_, ?_, ?_, ?_⟩
  · simp [specSepRow, List.getElem?_range hi, dashes]
  · unfold specSepLen
    simp only []
    split <;> split <;> omega
  · unfold specSepLen
    simp only []
    split <;> split <;> omega
  · intro h1 h2
    unfold specSepLen
    simp only [h1, if_true]
    split <;> omega

/-- The header `id,name` with the records `1,alexander` and `22`, a minimum
width of `3` and a maximum width of `5`. -/
theorem pretty_separator_width_witness :
    ∃ sep rest,
      prettyRows checkErrorExit prettytableNewTable ⟨false⟩ false 3 5 ["id", "name"]
          [["1", "alexander"], ["22"]] =
        PrettyResult.table (columnsOf false 3 5 ["id", "name"]) (sep :: rest) ∧
      sep.length = ["id", "name"].length ∧
      ∀ i, i < ["id", "name"].length →
        sep[i]? = some (some (String.mk
          (List.replicate (specSepLen 3 5 ["id", "name"] [["1", "alexander"], ["22"]] i) '-'))) ∧
        1 ≤ specSepLen 3 5 ["id", "name"] [["1", "alexander"], ["22"]] i ∧
        3 ≤ specSepLen 3 5 ["id", "name"] [["1", "alexander"], ["22"]] i ∧
        (0 < 5 → 3 ≤ 5 → specSepLen 3 5 ["id", "name"] [["1", "alexander"], ["22"]] i ≤ 5) :=
  pretty_separator_width checkErrorExit rfl prettytableNewTable ⟨false⟩ rfl false 3 5
    ["id", "name"] (by decide) [["1", "alexander"], ["22"]] (by decide) (by decide)

/-- C9, as stated, fails: no header row, `config.NoHeaderRow` set, the records
`1,a` and `2`, none wider than the first; with a minimum width of `4` and a
maximum width of `2` `prettytable.NewTable` returns no table and the command
panics at `tbl.Separator`: no row is added for the two records. -/
theorem pretty_index_safety_counterexample :
    (∀ record ∈ ([["1", "a"], ["2"]] : List (List String)),
      record.length ≤ (([["1", "a"], ["2"]] : List (List String)).headD []).length) ∧
    prettyRows checkErrorExit prettytableNewTable ⟨true⟩ false 4 2 [] [["1", "a"], ["2"]] =
      PrettyResult.nilPanic := by
  decide

/-- C9, amended: when the header row is non-empty and no data record has more
fields than it, or when the header row is empty, `config.NoHeaderRow` is set
and no data record has more fields than the first one, no index into
`maxLens` or `record2` is out of range; and when moreover the table is created
(`prettytable.NewTable` returns a table for the columns), the run ends with the
warning "no data" (no header row and no record) or with the table, whose rows
are the separator row, when the header is present, followed by one row per
data record, in the order of the data, each starting with the fields of its
record.  And for an input with a data record wider than the header, an index
is out of range. -/
theorem pretty_index_safety :
    (∀ (ce : Option Err → Bool) (newTable : List Column → Bool) (config : Config)
        (alignRight : Bool) (minWidth maxWidth : Nat) (headerRow : List String)
        (data : List (List String)),
        ((headerRow ≠ [] ∧ ∀ record ∈ data, record.length ≤ headerRow.length) ∨
          (headerRow = [] ∧ config.NoHeaderRow = true ∧
            ∀ record ∈ data, record.length ≤ (data.headD []).length)) →
        prettyRows ce newTable config alignRight minWidth maxWidth headerRow data ≠
          PrettyResult.indexPanic ∧
        (ce none = true →
          newTable (columnsOf alignRight minWidth maxWidth (colnames headerRow data)) = true →
          (headerRow = [] ∧ data = [] ∧
            prettyRows ce newTable config alignRight minWidth maxWidth headerRow data =
              PrettyResult.noData) ∨
          ∃ sepRows dataRows : List (List Cell),
            prettyRows ce newTable config alignRight minWidth maxWidth headerRow data =
              PrettyResult.table (columnsOf alignRight minWidth maxWidth (colnames headerRow data))
                (sepRows ++ dataRows) ∧
            sepRows.length = (if config.NoHeaderRow then 0 else 1) ∧
            dataRows.length = data.length ∧
            ∀ (k : Nat) (record : List String), data[k]? = some record →
              ∃ row : List Cell, dataRows[k]? = some row ∧
                row.take record.length = record.map some)) ∧
    (∃ (config : Config) (alignRight : Bool) (minWidth maxWidth : Nat)
        (headerRow : List String) (data : List (List String)),
        (∃ record ∈ data, headerRow.length < record.length) ∧
        prettyRows checkErrorExit prettytableNewTable config alignRight minWidth maxWidth
          headerRow data = PrettyResult.indexPanic) := by
  refine ⟨?_, ⟨⟨false⟩, false, 0, 0, ["id"], [["1", "alexander"]],
    ⟨["1", "alexander"], by decide, by decide⟩, by decide⟩⟩
  intro ce newTable config alignRight minWidth maxWidth headerRow data hin
  refine ⟨prettyRows_no_indexPanic ce newTable config alignRight minWidth maxWidth headerRow
    data hin, ?_⟩
  intro hce hnew
  cases hcfg : config.NoHeaderRow with
  | false =>
    rcases hin with ⟨hne, hw⟩ | ⟨_, hc, _⟩
    · right
      have hpos : headerRow.length > 0 := List.length_pos.mpr hne
      have hcn : colnames headerRow data = headerRow := by simp [colnames, hpos]
      rw [hcn] at hnew ⊢
      refine ⟨[specSepRow minWidth maxWidth headerRow data],
        specRows (specSepRow minWidth maxWidth headerRow data) data, ?_, by simp,
        specRows_length data _, fun k record h => specRows_take data _ k record h⟩
      rw [prettyRows_header ce hce newTable config hcfg alignRight minWidth maxWidth headerRow
        hne data hw hnew]
      simp
    · rw [hcfg] at hc
      exact absurd hc (by decide)
  | true =>
    by_cases hempty : headerRow = [] ∧ data = []
    · left
      refine ⟨hempty.1, hempty.2, ?_⟩
      simp [prettyRows, hempty.1, hempty.2]
    · right
      have hw : ∀ record ∈ data, record.length ≤ tableWidth headerRow data := by
        rcases hin with ⟨hne, hw⟩ | ⟨hnil, _, hw⟩
        · have hpos : headerRow.length > 0 := List.length_pos.mpr hne
          simpa [tableWidth, hpos] using hw
        · simpa [tableWidth, hnil] using hw
      refine ⟨[], specRows (newRecord2 headerRow data) data, ?_, by simp,
        specRows_length data _, fun k record h => specRows_take data _ k record h⟩
      rw [prettyRows_noheader ce hce newTable config hcfg alignRight minWidth maxWidth headerRow
        data hempty hw hnew]
      simp

/-- No header row, `config.NoHeaderRow` set, three records of which the first
is the widest: the table has one row per record. -/
theorem pretty_index_safety_witness :
    prettyRows checkErrorExit prettytableNewTable ⟨true⟩ false 0 0 []
        [["1", "alexander"], ["22"], ["3", "bo"]] ≠ PrettyResult.indexPanic ∧
    ((([] : List String) = [] ∧
        ([["1", "alexander"], ["22"], ["3", "bo"]] : List (List String)) = [] ∧
        prettyRows checkErrorExit prettytableNewTable ⟨true⟩ false 0 0 []
          [["1", "alexander"], ["22"], ["3", "bo"]] = PrettyResult.noData) ∨
      ∃ sepRows dataRows : List (List Cell),
        prettyRows checkErrorExit prettytableNewTable ⟨true⟩ false 0 0 []
            [["1", "alexander"], ["22"], ["3", "bo"]] =
          PrettyResult.table
            (columnsOf false 0 0 (colnames [] [["1", "alexander"], ["22"], ["3", "bo"]]))
            (sepRows ++ dataRows) ∧
        sepRows.length = (if (⟨true⟩ : Config).NoHeaderRow then 0 else 1) ∧
        dataRows.length = [["1", "alexander"], ["22"], ["3", "bo"]].length ∧
        ∀ (k : Nat) (record : List String),
          [["1", "alexander"], ["22"], ["3", "bo"]][k]? = some record →
          ∃ row : List Cell, dataRows[k]? = some row ∧
            row.take record.length = record.map some) :=
  have h := pretty_index_safety.1 checkErrorExit prettytableNewTable ⟨true⟩ false 0 0 []
    [["1", "alexander"], ["22"], ["3", "bo"]] (Or.inr ⟨rfl, rfl, by decide⟩)
  ⟨h.1, h.2 rfl (by decide)⟩

/-- C10: on an input that `pretty` tabulates (a non-empty header row read with
the header present and no record wider than it; or no header row,
`config.NoHeaderRow` set and no record wider than the first), either
`prettytable.NewTable` returns no table and no row is added, or the row added
for a data record holds the fields of the record in its first cells; when the
record has fewer fields than the table has columns, the remaining cells hold
what the row added just before holds there, which is the row of the preceding
record or, for the first record, the `'-'` separator row.  The rows of all
records are the records themselves exactly when every record has the full
number of columns. -/
theorem pretty_ragged_rows (ce : Option Err → Bool) (hce : ce none = true)
    (newTable : List Column → Bool) (config : Config) (alignRight : Bool)
    (minWidth maxWidth : Nat) (headerRow : List String) (data : List (List String))
    (hin : (headerRow ≠ [] ∧ config.NoHeaderRow = false ∧
        ∀ record ∈ data, record.length ≤ headerRow.length) ∨
      (headerRow = [] ∧ config.NoHeaderRow = true ∧ data ≠ [] ∧
        ∀ record ∈ data, record.length ≤ (data.headD []).length)) :
    (newTable (columnsOf alignRight minWidth maxWidth (colnames headerRow data)) = false ∧
      prettyRows ce newTable config alignRight minWidth maxWidth headerRow data =
        PrettyResult.nilPanic) ∨
    (newTable (columnsOf alignRight minWidth maxWidth (colnames headerRow data)) = true ∧
      ∃ (sepRows : List (List Cell)) (start : List Cell),
        prettyRows ce newTable config alignRight minWidth maxWidth headerRow data =
          PrettyResult.table (columnsOf alignRight minWidth maxWidth (colnames headerRow data))
            (sepRows ++ specRows start data) ∧
        (config.NoHeaderRow = false →
          sepRows = [start] ∧ start = specSepRow minWidth maxWidth headerRow data) ∧
        (config.NoHeaderRow = true → sepRows = []) ∧
        (∀ (k : Nat) (record : List String), data[k]? = some record →
          ∃ row : List Cell,
            (sepRows ++ specRows start data)[sepRows.length + k]? = some row ∧
            row.length = tableWidth headerRow data ∧
            row.take record.length = record.map some ∧
            (record.length = tableWidth headerRow data ∨
              ∃ previous : List Cell, 0 < sepRows.length + k ∧
                (sepRows ++ specRows start data)[sepRows.length + k - 1]? = some previous ∧
                row.drop record.length = previous.drop record.length)) ∧
        (specRows start data = data.map (fun record => record.map some) ↔
          ∀ record ∈ data, record.length = tableWidth headerRow data)) := by
  have hne0 : ¬ (headerRow = [] ∧ data = []) := by
    rcases hin with ⟨hne, _, _⟩ | ⟨_, _, hdata, _⟩
    · exact fun h => hne h.1
    · exact fun h => hdata h.2
  cases hnew : newTable (columnsOf alignRight minWidth maxWidth (colnames headerRow data)) with
  | false =>
    left
    exact ⟨rfl, prettyRows_rejected ce newTable config alignRight minWidth maxWidth headerRow
      data hne0 hnew⟩
  | true =>
    right
    refine ⟨rfl, ?_⟩
    rcases hin with ⟨hne, hcfg, hw⟩ | ⟨hnil, hcfg, hdata, hw⟩
    · have hpos : headerRow.length > 0 := List.length_pos.mpr hne
      have hcn : colnames headerRow data = headerRow := by simp [colnames, hpos]
      have htw : tableWidth headerRow data = headerRow.length := by simp [tableWidth, hpos]
      have hsl := specSepRow_length minWidth maxWidth headerRow data
      have hw3 : ∀ record ∈ data,
          record.length ≤ (specSepRow minWidth maxWidth headerRow data).length := by
        intro record hr; rw [hsl]; exact hw record hr
      rw [hcn] at hnew ⊢
      refine ⟨[specSepRow minWidth maxWidth headerRow data],
        specSepRow minWidth maxWidth headerRow data, ?_, fun _ => ⟨rfl, rfl⟩, ?_, ?_, ?_⟩
      · rw [prettyRows_header ce hce newTable config hcfg alignRight minWidth maxWidth headerRow
          hne data hw hnew]
        simp
      · intro hc; rw [hcfg] at hc; exact absurd hc (by decide)
      · intro k record hk
        have := rows_pointwise data _ hw3 [specSepRow minWidth maxWidth headerRow data]
          (Or.inl rfl) k record hk
        rw [hsl, ← htw] at this
        exact this
      · have := specRows_full data (specSepRow minWidth maxWidth headerRow data) hw3
        rw [hsl, ← htw] at this
        exact this
    · have htw : tableWidth headerRow data = (data.headD []).length := by
        simp [tableWidth, hnil]
      have hnl : (newRecord2 headerRow data).length = (data.headD []).length := by
        rw [newRecord2_length, htw]
      have hw2 : ∀ record ∈ data, record.length ≤ tableWidth headerRow data := by
        rw [htw]; exact hw
      have hw3 : ∀ record ∈ data, record.length ≤ (newRecord2 headerRow data).length := by
        rw [hnl]; exact hw
      refine ⟨[], newRecord2 headerRow data, ?_, ?_, fun _ => rfl, ?_, ?_⟩
      · rw [prettyRows_noheader ce hce newTable config hcfg alignRight minWidth maxWidth
          headerRow data hne0 hw2 hnew]
        simp
      · intro hc; rw [hcfg] at hc; exact absurd hc (by decide)
      · intro k record hk
        have hfirst : ∀ first rest, data = first :: rest →
            first.length = (newRecord2 headerRow data).length := by
          intro first rest hd
          rw [hnl, hd]
          rfl
        have := rows_pointwise data _ hw3 [] (Or.inr ⟨rfl, hfirst⟩) k record hk
        rw [hnl, ← htw] at this
        exact this
      · have := specRows_full data (newRecord2 headerRow data) hw3
        rw [hnl, ← htw] at this
        exact this

/-- The header `id,name,city` and three records, the second and third shorter
than the header: the rows of the table are the separator row followed by the
rows of the records, each built on the row before it. -/
theorem pretty_ragged_rows_witness :
    ∃ (sepRows : List (List Cell)) (start : List Cell),
      prettyRows checkErrorExit prettytableNewTable ⟨false⟩ false 0 0 ["id", "name", "city"]
          [["1", "al", "rome"], ["22"], ["3", "bo"]] =
        PrettyResult.table
          (columnsOf false 0 0 (colnames ["id", "name", "city"]
            [["1", "al", "rome"], ["22"], ["3", "bo"]]))
          (sepRows ++ specRows start [["1", "al", "rome"], ["22"], ["3", "bo"]]) ∧
      ((⟨false⟩ : Config).NoHeaderRow = false →
        sepRows = [start] ∧
          start = specSepRow 0 0 ["id", "name", "city"]
            [["1", "al", "rome"], ["22"], ["3", "bo"]]) :=
  match pretty_ragged_rows checkErrorExit rfl prettytableNewTable ⟨false⟩ false 0 0
      ["id", "name", "city"] [["1", "al", "rome"], ["22"], ["3", "bo"]]
      (Or.inl ⟨by decide, rfl, by decide⟩) with
  | Or.inl h => absurd h.1 (by decide)
  | Or.inr ⟨_, sepRows, start, h1, h2, _⟩ => ⟨sepRows, start, h1, h2⟩

end Csvtk
